import Mathlib

/-!
Verification development for the Refly canvas service
(`CanvasService` in the NestJS backend).

The relational store, object store, search index, job queue and CRDT
document contents are embedded as plain Lean data; each service method
becomes a pure function from a state `St` (plus an oracle environment for
downstream collaborators) to a result together with the successor state.
Relational writes of the duplication flow are additionally recorded in a
transaction log so that atomicity claims can be stated.
-/

set_option maxHeartbeats 1000000

namespace Refly

/-- A user row in the relational store. -/
structure UserRow where
  uid : String
  name : Option String := none
  nickname : Option String := none
  avatar : Option String := none
deriving DecidableEq, Repr

/-- A canvas metadata row (`canvas` table). -/
structure CanvasRow where
  uid : String
  canvasId : String
  title : String
  status : String
  stateStorageKey : Option String
  minimapStorageKey : Option String
  updatedAt : Nat
  deletedAt : Option Nat
deriving DecidableEq, Repr

/-- A duplication-job row (`duplicateRecord` table). -/
structure DupRecordRow where
  pk : Nat
  uid : String
  sourceId : String
  targetId : String
  entityType : String
  status : String
deriving DecidableEq, Repr

/-- A canvas-entity relation row (`canvasEntityRelation` table). -/
structure RelationRow where
  canvasId : String
  entityId : String
  entityType : String
  deletedAt : Option Nat
deriving DecidableEq, Repr

/-- The `data` object of a canvas node; `extra` stands for all further
fields the service never inspects. An absent `entityId` is modelled as
the empty string (falsy in the source). -/
structure NodeData where
  entityId : String
  title : Option String
  extra : String
deriving DecidableEq, Repr

/-- A canvas node of the CRDT document; `extra` stands for all further
node fields (position, measures, ...) the service never inspects. -/
structure CNode where
  type : String
  data : NodeData
  extra : String
deriving DecidableEq, Repr

/-- The contents of a canvas CRDT document: the three named regions. -/
structure YDocV where
  title : String
  nodes : List CNode
  edges : List String
deriving DecidableEq, Repr

/-- An AI action-result row (`actionResult` table). `inputQuery` stands
for `JSON.parse(input)?.query` of the source. -/
structure ActionResultRow where
  resultId : String
  version : Nat
  targetId : String
  targetType : String
  title : String
  inputQuery : Option String
deriving DecidableEq, Repr

/-- An action-step row (`actionStep` table). -/
structure ActionStepRow where
  resultId : String
  version : Nat
  content : String
deriving DecidableEq, Repr

/-- A document row (`document` table), fields used by auto-naming. -/
structure DocumentRow where
  docId : String
  title : String
  contentPreview : String
deriving DecidableEq, Repr

/-- A resource row (`resource` table), fields used by auto-naming. -/
structure ResourceRow where
  resourceId : String
  title : String
  contentPreview : String
deriving DecidableEq, Repr

/-- Relational writes of the duplication flow, recorded in a log of
transactions so that atomicity properties can be stated. -/
inductive WriteOp where
  | createCanvas (canvasId : String)
  | updateCanvasStatus (canvasId : String) (status : String)
  | createDupRecord (pk : Nat) (status : String)
  | updateDupRecord (pk : Nat) (status : String)
deriving DecidableEq, Repr

deriving instance DecidableEq for Except

/-- Errors surfaced to callers. -/
inductive Err where
  | canvasNotFound
  | storage (msg : String)
  | downstream (msg : String)
deriving DecidableEq, Repr

/-- The whole observable state: relational tables, object store (a blob is
`none` when unreadable/corrupt), search index, delete-entity job queue,
fresh-id and pk counters, a clock, a counter of language-model invocations
and the transaction log. -/
structure St where
  users : List UserRow
  canvases : List CanvasRow
  dupRecords : List DupRecordRow
  relations : List RelationRow
  actionResults : List ActionResultRow
  actionSteps : List ActionStepRow
  documents : List DocumentRow
  resources : List ResourceRow
  store : List (String × Option YDocV)
  searchIndex : List String
  queue : List (String × String × String)
  nextId : Nat
  nextPk : Nat
  now : Nat
  modelCalls : Nat
  txLog : List (List WriteOp)
deriving DecidableEq, Repr

/-- `genCanvasID` / downstream id generation: ids drawn from a counter. -/
def freshId (st : St) : String := "id" ++ toString st.nextId

/-- `miscService.generateFileURL`. -/
def fileURL (k : String) : String := "url/" ++ k

/-- Object-store lookup (`minio.client.getObject` target). -/
def lookupStore (st : St) (k : String) : Option (Option YDocV) :=
  (st.store.find? (fun e => e.1 == k)).map (fun e => e.2)

/-- Object-store put (`minio.client.putObject`): newest entry shadows. -/
def putStore (st : St) (k : String) (d : Option YDocV) : St :=
  { st with store := (k, d) :: st.store }

/-- Object-store remove (`minio.client.removeObject`). -/
def removeStore (st : St) (k : String) : St :=
  { st with store := st.store.filter (fun e => e.1 != k) }

/-- Search-index upsert (`elasticsearch.upsertCanvas`), keyed by id. -/
def upsertIndex (idx : List String) (id : String) : List String :=
  if idx.contains id then idx else id :: idx

/-- A fresh, empty CRDT document (`new Y.Doc()`). -/
def emptyDoc : YDocV := { title := "", nodes := [], edges := [] }

/-- `getCanvasYDoc`: fails soft — a falsy key, a missing object or an
unreadable blob all yield `none` instead of an error. -/
def getCanvasYDoc (st : St) (key : Option String) : Option YDocV :=
  match key with
  | none => none
  | some k =>
    if k = "" then none
    else
      match lookupStore st k with
      | some (some d) => some d
      | _ => none

/-- The `where` predicate of `listCanvases` / `getCanvasDetail`:
same owner and not soft-deleted. -/
def ownedLive (uid : String) (c : CanvasRow) : Bool :=
  c.uid == uid && c.deletedAt == none

/-- Insert a canvas into a list kept sorted by `updatedAt` descending. -/
def insertByUpdatedDesc (c : CanvasRow) : List CanvasRow → List CanvasRow
  | [] => [c]
  | x :: xs =>
    if c.updatedAt ≤ x.updatedAt then x :: insertByUpdatedDesc c xs
    else c :: x :: xs

/-- `orderBy: { updatedAt: 'desc' }`. -/
def sortByUpdatedDesc : List CanvasRow → List CanvasRow
  | [] => []
  | x :: xs => insertByUpdatedDesc x (sortByUpdatedDesc xs)

/-- `listCanvases`: the owner's live canvases, newest-updated first,
paginated, each enriched with a minimap URL when present. -/
def listCanvases (st : St) (uid : String) (page pageSize : Nat) :
    List (CanvasRow × Option String) :=
  let filtered := st.canvases.filter (fun c => ownedLive uid c)
  let sorted := sortByUpdatedDesc filtered
  let paged := (sorted.drop ((page - 1) * pageSize)).take pageSize
  paged.map (fun c => (c, c.minimapStorageKey.map fileURL))

/-- `getCanvasDetail`: first live row of the owner with this id,
or `CanvasNotFoundError`. -/
def getCanvasDetail (st : St) (uid canvasId : String) :
    Except Err (CanvasRow × Option String) :=
  match st.canvases.find? (fun c => c.canvasId == canvasId && ownedLive uid c) with
  | none => .error .canvasNotFound
  | some c => .ok (c, c.minimapStorageKey.map fileURL)

/-! ### Sorting lemmas -/

theorem mem_insertByUpdatedDesc {c a : CanvasRow} {l : List CanvasRow} :
    a ∈ insertByUpdatedDesc c l ↔ a = c ∨ a ∈ l := by
  induction l with
  | nil => simp [insertByUpdatedDesc]
  | cons x xs ih =>
    simp only [insertByUpdatedDesc]
    split
    · simp only [List.mem_cons, ih]
      tauto
    · simp [List.mem_cons]

theorem sorted_insertByUpdatedDesc {c : CanvasRow} {l : List CanvasRow}
    (h : l.Pairwise (fun a b => b.updatedAt ≤ a.updatedAt)) :
    (insertByUpdatedDesc c l).Pairwise (fun a b => b.updatedAt ≤ a.updatedAt) := by
  induction l with
  | nil => simp [insertByUpdatedDesc]
  | cons x xs ih =>
    rcases List.pairwise_cons.mp h with ⟨hx, hxs⟩
    simp only [insertByUpdatedDesc]
    split
    · rename_i hle
      refine List.pairwise_cons.mpr ⟨?_, ih hxs⟩
      intro b hb
      rcases mem_insertByUpdatedDesc.mp hb with rfl | hb
      · exact hle
      · exact hx b hb
    · rename_i hgt
      refine List.pairwise_cons.mpr ⟨?_, h⟩
      intro b hb
      rcases List.mem_cons.mp hb with rfl | hb
      · omega
      · have := hx b hb
        omega

theorem mem_sortByUpdatedDesc {a : CanvasRow} {l : List CanvasRow} :
    a ∈ sortByUpdatedDesc l ↔ a ∈ l := by
  induction l with
  | nil => simp [sortByUpdatedDesc]
  | cons x xs ih =>
    simp only [sortByUpdatedDesc, mem_insertByUpdatedDesc, ih, List.mem_cons]

theorem sorted_sortByUpdatedDesc (l : List CanvasRow) :
    (sortByUpdatedDesc l).Pairwise (fun a b => b.updatedAt ≤ a.updatedAt) := by
  induction l with
  | nil => simp [sortByUpdatedDesc]
  | cons x xs ih => exact sorted_insertByUpdatedDesc ih

/-- C7: every canvas `listCanvases` returns is a live canvas of the
requesting owner, the result is sorted newest-updated first, a canvas
all of whose rows are soft-deleted never appears, and `getCanvasDetail`
fails with NotFound for it. -/
theorem C7_list_get_exclude_deleted (st : St) (uid cid : String) (page pageSize : Nat)
    (hdel : ∀ c ∈ st.canvases, c.canvasId = cid → c.deletedAt ≠ none) :
    (∀ x ∈ listCanvases st uid page pageSize,
        x.1.uid = uid ∧ x.1.deletedAt = none ∧ x.1.canvasId ≠ cid) ∧
    (listCanvases st uid page pageSize).Pairwise
        (fun a b => b.1.updatedAt ≤ a.1.updatedAt) ∧
    getCanvasDetail st uid cid = .error .canvasNotFound := by
  refine ⟨?_, ?_, ?_⟩
  · intro x hx
    simp only [listCanvases, List.mem_map] at hx
    obtain ⟨c, hc, rfl⟩ := hx
    have hsub : List.Sublist
        (((sortByUpdatedDesc (st.canvases.filter (fun c => ownedLive uid c))).drop
          ((page - 1) * pageSize)).take pageSize)
        (sortByUpdatedDesc (st.canvases.filter (fun c => ownedLive uid c))) :=
      (List.take_sublist _ _).trans (List.drop_sublist _ _)
    have hmem : c ∈ st.canvases.filter (fun c => ownedLive uid c) :=
      mem_sortByUpdatedDesc.mp (hsub.mem hc)
    have := List.mem_filter.mp hmem
    obtain ⟨hmem', hp⟩ := this
    simp only [ownedLive, Bool.and_eq_true, beq_iff_eq] at hp
    refine ⟨hp.1, hp.2, ?_⟩
    intro hcid
    exact hdel c hmem' hcid hp.2
  · have hs := sorted_sortByUpdatedDesc (st.canvases.filter (fun c => ownedLive uid c))
    have hsub : List.Sublist
        (((sortByUpdatedDesc (st.canvases.filter (fun c => ownedLive uid c))).drop
          ((page - 1) * pageSize)).take pageSize)
        (sortByUpdatedDesc (st.canvases.filter (fun c => ownedLive uid c))) :=
      (List.take_sublist _ _).trans (List.drop_sublist _ _)
    have hps := hs.sublist hsub
    simp only [listCanvases]
    exact hps.map _ (fun a b h => h)
  · simp only [getCanvasDetail]
    have : st.canvases.find? (fun c => c.canvasId == cid && ownedLive uid c) = none := by
      apply List.find?_eq_none.mpr
      intro c hc
      simp only [ownedLive, Bool.and_eq_true, beq_iff_eq, not_and]
      intro h1 _ h3
      exact hdel c hc h1 h3
    rw [this]

/-- Witness for C7 at a concrete state holding one deleted canvas with the
queried id and one live canvas of another owner. -/
theorem C7_witness :
    let st : St :=
      { users := [], canvases :=
          [{ uid := "alice", canvasId := "c1", title := "t", status := "ready",
             stateStorageKey := some "state/c1", minimapStorageKey := none,
             updatedAt := 5, deletedAt := some 9 },
           { uid := "bob", canvasId := "c2", title := "u", status := "ready",
             stateStorageKey := some "state/c2", minimapStorageKey := none,
             updatedAt := 7, deletedAt := none }],
        dupRecords := [], relations := [], actionResults := [], actionSteps := [],
        documents := [], resources := [], store := [], searchIndex := [],
        queue := [], nextId := 0, nextPk := 0, now := 10, modelCalls := 0, txLog := [] }
    (∀ x ∈ listCanvases st "alice" 1 10,
        x.1.uid = "alice" ∧ x.1.deletedAt = none ∧ x.1.canvasId ≠ "c1") ∧
    (listCanvases st "alice" 1 10).Pairwise
        (fun a b => b.1.updatedAt ≤ a.1.updatedAt) ∧
    getCanvasDetail st "alice" "c1" = .error .canvasNotFound := by
  intro st
  exact C7_list_get_exclude_deleted st "alice" "c1" 1 10 (by decide)


/-! ### Raw data, creation, update, deletion, auto-naming -/

/-- The response shape of `getCanvasRawData`. -/
structure RawCanvasData where
  title : String
  nodes : List CNode
  edges : List String
  ownerUid : String
  ownerName : Option String
  ownerNickname : Option String
  ownerAvatar : Option String
  minimapUrl : Option String
deriving DecidableEq, Repr

/-- `getCanvasRawData`: live owned row, owner profile, CRDT regions with
`[]` fallbacks when the document cannot be loaded. -/
def getCanvasRawData (st : St) (uid canvasId : String) : Except Err RawCanvasData :=
  match st.canvases.find? (fun c => c.canvasId == canvasId && ownedLive uid c) with
  | none => .error .canvasNotFound
  | some canvas =>
    let userPo := st.users.find? (fun u => u.uid == uid)
    let doc := getCanvasYDoc st canvas.stateStorageKey
    .ok {
      title := canvas.title
      nodes := (doc.map (fun d => d.nodes)).getD []
      edges := (doc.map (fun d => d.edges)).getD []
      ownerUid := canvas.uid
      ownerName := userPo.bind (fun u => u.name)
      ownerNickname := userPo.bind (fun u => u.nickname)
      ownerAvatar := userPo.bind (fun u => u.avatar)
      minimapUrl := canvas.minimapStorageKey.map fileURL }

/-- `createCanvas`: fresh id, metadata row, empty document with the given
title saved to the state key, search-index upsert. The unique constraint
on `canvasId` is modelled as an explicit collision check. -/
def createCanvas (st : St) (uid title : String) : Except Err CanvasRow × St :=
  let canvasId := freshId st
  let key := "state/" ++ canvasId
  if st.canvases.any (fun c => c.canvasId == canvasId) then
    (.error (.storage "unique constraint violated"), st)
  else
    let row : CanvasRow :=
      { uid := uid, canvasId := canvasId, title := title, status := "ready",
        stateStorageKey := some key, minimapStorageKey := none,
        updatedAt := st.now, deletedAt := none }
    let st1 := { st with canvases := row :: st.canvases, nextId := st.nextId + 1 }
    let ydoc : YDocV := { title := title, nodes := [], edges := [] }
    let st2 := putStore st1 key (some ydoc)
    ( .ok row, { st2 with searchIndex := upsertIndex st2.searchIndex canvasId })

/-- `updateCanvas`: relational update of title/minimap, title rewrite in
the CRDT document through a direct session (modelled as load/put on the
state blob), delete-after-commit of a replaced minimap, index upsert. -/
def updateCanvas (st : St) (uid canvasId : String)
    (newTitle : Option String) (newMinimap : Option String) :
    Except Err CanvasRow × St :=
  match st.canvases.find? (fun c => c.canvasId == canvasId && ownedLive uid c) with
  | none => (.error .canvasNotFound, st)
  | some canvas =>
    let updated : CanvasRow :=
      { canvas with
        title := newTitle.getD canvas.title,
        minimapStorageKey :=
          match newMinimap with
          | some k => some k
          | none => canvas.minimapStorageKey }
    let st1 := { st with canvases := st.canvases.map (fun c =>
      if c.canvasId == canvasId && ownedLive uid c then updated else c) }
    let st2 :=
      match newTitle, canvas.stateStorageKey with
      | some t, some k =>
        let d := (getCanvasYDoc st1 (some k)).getD emptyDoc
        putStore st1 k (some { d with title := t })
      | _, _ => st1
    let st3 :=
      match canvas.minimapStorageKey, newMinimap with
      | some orig, some nk => if nk != orig then removeStore st2 orig else st2
      | _, _ => st2
    ( .ok updated, { st3 with searchIndex := upsertIndex st3.searchIndex canvas.canvasId })

/-- The cleanup body of `deleteCanvas` on the found row: soft-delete the
row, drop the search-index entry, remove the state blob, and with
`deleteAllFiles` enqueue one delete-knowledge-entity job per live
relation of the canvas. -/
def deleteCanvasApply (st : St) (canvasId : String) (canvas : CanvasRow)
    (deleteAllFiles : Bool) : St :=
  let st1 := { st with canvases := st.canvases.map (fun (c : CanvasRow) =>
    if c.canvasId == canvasId then { c with deletedAt := some st.now } else c) }
  let st2 := { st1 with searchIndex := st1.searchIndex.filter (fun i => i != canvas.canvasId) }
  let st3 :=
    match canvas.stateStorageKey with
    | some k => removeStore st2 k
    | none => st2
  if deleteAllFiles then
    let rels := st3.relations.filter (fun r => r.canvasId == canvasId && r.deletedAt == none)
    { st3 with queue := st3.queue ++ rels.map (fun r => (canvas.uid, r.entityId, r.entityType)) }
  else st3

/-- `deleteCanvas`: NotFound unless a live owned row exists, then the
cleanup body. -/
def deleteCanvas (st : St) (uid canvasId : String) (deleteAllFiles : Bool) :
    Except Err Unit × St :=
  match st.canvases.find? (fun c => c.canvasId == canvasId && ownedLive uid c) with
  | none => (.error .canvasNotFound, st)
  | some canvas => (.ok (), deleteCanvasApply st canvasId canvas deleteAllFiles)

/-- A content item fed to the canvas-title generator. -/
structure CanvasContentItem where
  question : Option String := none
  answer : Option String := none
  title : Option String := none
  contentPreview : Option String := none
deriving DecidableEq, Repr

/-- Oracle environment for downstream collaborators of the service.
Modelled from the spec: the document/resource/action-result duplication
services either create a fresh downstream entity or fail with an error
(`none` = success); `dupFiles`, `putObject` and `finalTx` inject optional
failures of the remaining copy-body steps; `genTitle` is the
title-generation routine backed by the default language model. -/
structure Env where
  dupDocument : String → Option Err
  dupResource : String → Option Err
  dupActionResult : String → Option Err
  dupFiles : Option Err
  putObject : Option Err
  finalTx : Option Err
  genTitle : List CanvasContentItem → String

/-- One auto-naming content item built from an action result: the original
query (falling back to the title) and the concatenated step outputs,
truncated to 500 characters per step. -/
def contentItemOfResult (st : St) (r : ActionResultRow) : CanvasContentItem :=
  let steps := st.actionSteps.filter (fun s => s.resultId == r.resultId && s.version == r.version)
  { question := some (r.inputQuery.getD r.title),
    answer := some (String.intercalate "\n" (steps.map (fun s => s.content.take 500))) }

/-- Auto-naming fallback: titles and previews of every document/resource
related to the canvas by a live relation. -/
def fallbackContentItems (st : St) (canvasId : String) : List CanvasContentItem :=
  let relations := st.relations.filter (fun r =>
    r.canvasId == canvasId && (r.entityType == "resource" || r.entityType == "document") &&
      r.deletedAt == none)
  let relIds := relations.map (fun r => r.entityId)
  let docs := st.documents.filter (fun d => relIds.contains d.docId)
  let ress := st.resources.filter (fun r => relIds.contains r.resourceId)
  docs.map (fun d => { title := some d.title, contentPreview := some d.contentPreview }) ++
    ress.map (fun r => { title := some r.title, contentPreview := some r.contentPreview })

/-- `autoNameCanvas`: gather content items from action results, fall back
to related documents/resources, return an empty title when none exist,
otherwise invoke the model (counted in `modelCalls`) and optionally apply
the title directly. -/
def autoNameCanvas (env : Env) (st : St) (uid canvasId : String) (directUpdate : Bool) :
    Except Err String × St :=
  match st.canvases.find? (fun c => c.canvasId == canvasId && ownedLive uid c) with
  | none => (.error .canvasNotFound, st)
  | some _ =>
    let results := st.actionResults.filter (fun r =>
      r.targetId == canvasId && r.targetType == "canvas")
    let items0 := results.map (contentItemOfResult st)
    let items := if items0.isEmpty then fallbackContentItems st canvasId else items0
    if items.isEmpty then (.ok "", st)
    else
      let st1 := { st with modelCalls := st.modelCalls + 1 }
      let newTitle := env.genTitle items
      if directUpdate && newTitle != "" then
        match updateCanvas st1 uid canvasId (some newTitle) none with
        | (.error e, st2) => (.error e, st2)
        | (.ok _, st2) => (.ok newTitle, st2)
      else (.ok newTitle, st1)


/-! ### C8, C9, C10 -/

theorem statePrefix_ne_empty (x : String) : "state/" ++ x ≠ "" := by
  intro h
  have hlen := congrArg String.length h
  rw [String.length_append] at hlen
  have h6 : "state/".length = 6 := rfl
  have h0 : ("" : String).length = 0 := rfl
  omega

/-- C8: after a successful `createCanvas owner T`, `getCanvasRawData` on
the new canvas returns `title = T`, `nodes = []` and `edges = []`. -/
theorem C8_create_then_rawData (st : St) (uid title : String) (row : CanvasRow) (st' : St)
    (h : createCanvas st uid title = (.ok row, st')) :
    ∃ raw, getCanvasRawData st' uid row.canvasId = .ok raw ∧
      raw.title = title ∧ raw.nodes = [] ∧ raw.edges = [] := by
  unfold createCanvas at h
  by_cases hany : st.canvases.any (fun c => c.canvasId == freshId st) = true
  · rw [if_pos hany] at h
    exact absurd (congrArg Prod.fst h) (by simp)
  · rw [if_neg hany] at h
    have hrow := congrArg Prod.fst h
    have hst := congrArg Prod.snd h
    simp only at hrow hst
    injection hrow with hrow
    subst hrow
    subst hst
    refine ⟨{ title := title, nodes := [], edges := [],
              ownerUid := uid,
              ownerName := (st.users.find? (fun u => u.uid == uid)).bind (fun u => u.name),
              ownerNickname := (st.users.find? (fun u => u.uid == uid)).bind (fun u => u.nickname),
              ownerAvatar := (st.users.find? (fun u => u.uid == uid)).bind (fun u => u.avatar),
              minimapUrl := none }, ?_, rfl, rfl, rfl⟩
    simp [getCanvasRawData, putStore, getCanvasYDoc, lookupStore, ownedLive,
      statePrefix_ne_empty]

/-- C9: on a canvas with no action results targeting it and no live
document/resource relations, `autoNameCanvas` returns an empty title,
leaves the state untouched and never invokes the model. -/
theorem C9_autoName_no_signals (env : Env) (st : St) (uid canvasId : String) (directUpdate : Bool)
    (hc : (st.canvases.find? (fun c => c.canvasId == canvasId && ownedLive uid c)).isSome = true)
    (hA : st.actionResults.filter (fun r =>
      r.targetId == canvasId && r.targetType == "canvas") = [])
    (hR : st.relations.filter (fun r =>
      r.canvasId == canvasId && (r.entityType == "resource" || r.entityType == "document") &&
        r.deletedAt == none) = []) :
    autoNameCanvas env st uid canvasId directUpdate = (.ok "", st) ∧
    (autoNameCanvas env st uid canvasId directUpdate).2.modelCalls = st.modelCalls := by
  obtain ⟨canvas, hcv⟩ := Option.isSome_iff_exists.mp hc
  have hmain : autoNameCanvas env st uid canvasId directUpdate = (.ok "", st) := by
    unfold autoNameCanvas
    rw [hcv, hA]
    simp only [fallbackContentItems, hR, List.map_nil, List.isEmpty_nil, if_true]
    simp [List.filter_eq_nil_iff]
  exact ⟨hmain, by rw [hmain]⟩

theorem lookupStore_removeStore (st : St) (k : String) :
    lookupStore (removeStore st k) k = none := by
  simp only [lookupStore, removeStore]
  rw [List.find?_eq_none.mpr]
  · rfl
  · intro e he
    have h2 := (List.mem_filter.mp he).2
    simp only [bne_iff_ne, ne_eq] at h2
    simp [h2]

/-- `deleteCanvasApply` never touches the relation table. -/
theorem deleteCanvasApply_relations (st : St) (cid : String) (canvas : CanvasRow) (daf : Bool) :
    (deleteCanvasApply st cid canvas daf).relations = st.relations := by
  unfold deleteCanvasApply
  cases canvas.stateStorageKey <;> cases daf <;> simp [removeStore]

theorem deleteCanvasApply_canvases (st : St) (cid : String) (canvas : CanvasRow) (daf : Bool) :
    (deleteCanvasApply st cid canvas daf).canvases = st.canvases.map (fun (c : CanvasRow) =>
      if c.canvasId == cid then { c with deletedAt := some st.now } else c) := by
  unfold deleteCanvasApply
  cases canvas.stateStorageKey <;> cases daf <;> simp [removeStore]

theorem deleteCanvasApply_searchIndex (st : St) (cid : String) (canvas : CanvasRow) (daf : Bool) :
    (deleteCanvasApply st cid canvas daf).searchIndex =
      st.searchIndex.filter (fun i => i != canvas.canvasId) := by
  unfold deleteCanvasApply
  cases canvas.stateStorageKey <;> cases daf <;> simp [removeStore]

theorem deleteCanvasApply_store (st : St) (cid : String) (canvas : CanvasRow) (daf : Bool) :
    (deleteCanvasApply st cid canvas daf).store =
      match canvas.stateStorageKey with
      | some k => st.store.filter (fun e => e.1 != k)
      | none => st.store := by
  unfold deleteCanvasApply
  cases canvas.stateStorageKey <;> cases daf <;> simp [removeStore]

theorem deleteCanvasApply_queue (st : St) (cid : String) (canvas : CanvasRow) (daf : Bool) :
    (deleteCanvasApply st cid canvas daf).queue =
      if daf then st.queue ++ (st.relations.filter (fun r =>
        r.canvasId == cid && r.deletedAt == none)).map (fun r =>
          (canvas.uid, r.entityId, r.entityType))
      else st.queue := by
  unfold deleteCanvasApply
  cases canvas.stateStorageKey <;> cases daf <;> simp [removeStore]

/-- C10: `deleteCanvas` soft-deletes the row, removes the search-index
entry and the state blob, leaves the relation table entirely unchanged
(so the canvas's live relation rows stay live), and with `deleteAllFiles`
only enqueues one deletion job per live relation. -/
theorem C10_delete_frame (st : St) (uid canvasId : String) (daf : Bool) (canvas : CanvasRow)
    (hc : st.canvases.find? (fun c => c.canvasId == canvasId && ownedLive uid c) = some canvas) :
    (deleteCanvas st uid canvasId daf).1 = .ok () ∧
    (deleteCanvas st uid canvasId daf).2.relations = st.relations ∧
    (∀ c ∈ (deleteCanvas st uid canvasId daf).2.canvases,
        c.canvasId = canvasId → c.deletedAt = some st.now) ∧
    canvas.canvasId ∉ (deleteCanvas st uid canvasId daf).2.searchIndex ∧
    (∀ k, canvas.stateStorageKey = some k →
        lookupStore (deleteCanvas st uid canvasId daf).2 k = none) ∧
    (daf = false → (deleteCanvas st uid canvasId daf).2.queue = st.queue) ∧
    (daf = true → (deleteCanvas st uid canvasId daf).2.queue =
        st.queue ++ (st.relations.filter (fun r =>
          r.canvasId == canvasId && r.deletedAt == none)).map (fun r =>
            (canvas.uid, r.entityId, r.entityType))) := by
  have hres : deleteCanvas st uid canvasId daf =
      (.ok (), deleteCanvasApply st canvasId canvas daf) := by
    unfold deleteCanvas
    rw [hc]
  simp only [hres]
  refine ⟨trivial, deleteCanvasApply_relations .., ?_, ?_, ?_, ?_, ?_⟩
  · intro c hcm hcid
    rw [deleteCanvasApply_canvases] at hcm
    obtain ⟨c0, _, rfl⟩ := List.mem_map.mp hcm
    by_cases h0 : c0.canvasId == canvasId
    · simp [h0]
    · rw [if_neg h0] at hcid ⊢
      exact absurd hcid (by simpa using h0)
  · intro hmem
    rw [deleteCanvasApply_searchIndex] at hmem
    have h2 := (List.mem_filter.mp hmem).2
    simp at h2
  · intro k hk
    simp only [lookupStore, deleteCanvasApply_store, hk]
    rw [List.find?_eq_none.mpr]
    · rfl
    · intro e he
      have h2 := (List.mem_filter.mp he).2
      simp only [bne_iff_ne, ne_eq] at h2
      simp [h2]
  · intro hdaf
    rw [deleteCanvasApply_queue, if_neg (by simp [hdaf])]
  · intro hdaf
    rw [deleteCanvasApply_queue, if_pos (by simp [hdaf])]

/-! ### Base states and oracle environments for witnesses -/

/-- The empty state. -/
def emptySt : St :=
  { users := [], canvases := [], dupRecords := [], relations := [], actionResults := [],
    actionSteps := [], documents := [], resources := [], store := [], searchIndex := [],
    queue := [], nextId := 0, nextPk := 0, now := 0, modelCalls := 0, txLog := [] }

/-- An environment where every downstream collaborator succeeds. -/
def okEnv : Env :=
  { dupDocument := fun _ => none, dupResource := fun _ => none,
    dupActionResult := fun _ => none, dupFiles := none, putObject := none,
    finalTx := none, genTitle := fun _ => "generated" }

/-- A single live canvas of user `alice` with an empty stored document. -/
def oneCanvasSt : St :=
  { emptySt with
    canvases := [{ uid := "alice", canvasId := "c1", title := "t", status := "ready",
                   stateStorageKey := some "state/c1", minimapStorageKey := none,
                   updatedAt := 3, deletedAt := none }],
    store := [("state/c1", some emptyDoc)] }

/-- Witness for C8 at the empty state. -/
theorem C8_witness :
    ∃ raw, getCanvasRawData (createCanvas emptySt "alice" "T").2 "alice" "id0" = .ok raw ∧
      raw.title = "T" ∧ raw.nodes = [] ∧ raw.edges = [] := by
  obtain ⟨raw, h1, h2, h3, h4⟩ := C8_create_then_rawData emptySt "alice" "T"
    { uid := "alice", canvasId := "id0", title := "T", status := "ready",
      stateStorageKey := some "state/id0", minimapStorageKey := none,
      updatedAt := 0, deletedAt := none }
    (createCanvas emptySt "alice" "T").2 rfl
  exact ⟨raw, h1, h2, h3, h4⟩

/-- Witness for C9 at a one-canvas state with no content signals. -/
theorem C9_witness :
    autoNameCanvas okEnv oneCanvasSt "alice" "c1" true = (.ok "", oneCanvasSt) ∧
    (autoNameCanvas okEnv oneCanvasSt "alice" "c1" true).2.modelCalls =
      oneCanvasSt.modelCalls :=
  C9_autoName_no_signals okEnv oneCanvasSt "alice" "c1" true (by decide) rfl rfl

/-- Witness for C10 at a one-canvas state with one live relation. -/
theorem C10_witness :
    let st : St := { oneCanvasSt with
      relations := [{ canvasId := "c1", entityId := "d1", entityType := "document",
                      deletedAt := none }],
      searchIndex := ["c1"] }
    let canvas : CanvasRow :=
      { uid := "alice", canvasId := "c1", title := "t", status := "ready",
        stateStorageKey := some "state/c1", minimapStorageKey := none,
        updatedAt := 3, deletedAt := none }
    (deleteCanvas st "alice" "c1" true).1 = .ok () ∧
    (deleteCanvas st "alice" "c1" true).2.relations = st.relations ∧
    (∀ c ∈ (deleteCanvas st "alice" "c1" true).2.canvases,
        c.canvasId = "c1" → c.deletedAt = some st.now) ∧
    canvas.canvasId ∉ (deleteCanvas st "alice" "c1" true).2.searchIndex ∧
    (∀ k, canvas.stateStorageKey = some k →
        lookupStore (deleteCanvas st "alice" "c1" true).2 k = none) ∧
    (true = false → (deleteCanvas st "alice" "c1" true).2.queue = st.queue) ∧
    (true = true → (deleteCanvas st "alice" "c1" true).2.queue =
        st.queue ++ (st.relations.filter (fun r =>
          r.canvasId == "c1" && r.deletedAt == none)).map (fun r =>
            (canvas.uid, r.entityId, r.entityType))) := by
  intro st canvas
  exact C10_delete_frame st "alice" "c1" true canvas (by decide)


/-! ### Duplication flow -/

/-- Parameters of `duplicateCanvas` (request plus the `checkOwnership`
option). -/
structure DupParam where
  canvasId : String
  title : Option String
  duplicateEntities : Bool
  checkOwnership : Bool
deriving DecidableEq, Repr

/-- The source lookup of `duplicateCanvas`: a live row with the id, with
the owner filter applied only when `checkOwnership` is set. -/
def dupSourcePred (uid : String) (p : DupParam) (c : CanvasRow) : Bool :=
  c.canvasId == p.canvasId && c.deletedAt == none && (!p.checkOwnership || c.uid == uid)

/-- `title || canvas.title`: an absent or empty requested title falls
back to the source title. -/
def resolveTitle (t : Option String) (srcTitle : String) : String :=
  match t with
  | none => srcTitle
  | some s => if s = "" then srcTitle else s

/-- Node types the entity-forking pass duplicates. -/
def duplicableType (t : String) : Bool :=
  t == "document" || t == "resource" || t == "skillResponse"

/-- Modelled from the spec: `knowledgeService.duplicateDocument` (not in
the analysed sources) creates an independent document copy under a fresh
id. -/
def createForkedDocument (st : St) (nid : String) (title : Option String) : St :=
  { st with documents :=
      { docId := nid, title := title.getD "", contentPreview := "" } :: st.documents }

/-- Modelled from the spec: `knowledgeService.duplicateResource` (not in
the analysed sources) creates an independent resource copy under a fresh
id. -/
def createForkedResource (st : St) (nid : String) (title : Option String) : St :=
  { st with resources :=
      { resourceId := nid, title := title.getD "", contentPreview := "" } :: st.resources }

/-- Modelled from the spec: `actionService.duplicateActionResult` (not in
the analysed sources) creates an independent action-result copy under a
fresh id, targeting the new canvas. -/
def createForkedActionResult (st : St) (nid tid : String) (title : Option String) : St :=
  { st with actionResults :=
      { resultId := nid, version := 0, targetId := tid, targetType := "canvas",
        title := title.getD "", inputQuery := none } :: st.actionResults }

/-- One step of the entity-forking pass: duplicable nodes get their
`entityId` rewritten in place to the id of the entity forked through the
respective downstream service; other node types pass through. -/
def forkNode (env : Env) (st : St) (tid : String) (node : CNode) :
    Except Err CNode × St :=
  if node.type == "document" then
    match env.dupDocument node.data.entityId with
    | some e => (.error e, st)
    | none =>
      let nid := freshId st
      ( .ok { node with data := { node.data with entityId := nid } },
        { createForkedDocument st nid node.data.title with nextId := st.nextId + 1 })
  else if node.type == "resource" then
    match env.dupResource node.data.entityId with
    | some e => (.error e, st)
    | none =>
      let nid := freshId st
      ( .ok { node with data := { node.data with entityId := nid } },
        { createForkedResource st nid node.data.title with nextId := st.nextId + 1 })
  else if node.type == "skillResponse" then
    match env.dupActionResult node.data.entityId with
    | some e => (.error e, st)
    | none =>
      let nid := freshId st
      ( .ok { node with data := { node.data with entityId := nid } },
        { createForkedActionResult st nid tid node.data.title with nextId := st.nextId + 1 })
  else (.ok node, st)

/-- The forking pass over the node list (sequentialised; the bounded
concurrency of the source only caps load and a failure anywhere aborts
the whole batch either way). -/
def forkNodes (env : Env) (st : St) (tid : String) :
    List CNode → Except Err (List CNode) × St
  | [] => (.ok [], st)
  | n :: ns =>
    match forkNode env st tid n with
    | (.error e, st1) => (.error e, st1)
    | (.ok n', st1) =>
      match forkNodes env st1 tid ns with
      | (.error e, st2) => (.error e, st2)
      | (.ok ns', st2) => (.ok (n' :: ns'), st2)

/-- The copy body's source document load: a falsy key yields a fresh
empty document, but a missing or unreadable blob is an uncaught error
(`_duplicateCanvas` reads the object outside any try/catch). -/
def loadSourceDoc (st : St) (key : Option String) : Except Err YDocV :=
  match key with
  | none => .ok emptyDoc
  | some k =>
    if k = "" then .ok emptyDoc
    else
      match lookupStore st k with
      | none => .error (.storage "object not found")
      | some none => .error (.storage "unreadable state")
      | some (some d) => .ok d

/-- The success transaction of the copy body: target canvas to `ready`
and the duplicate record to `finish`, in one relational transaction,
logged as one transaction. -/
def applyFinalTx (st : St) (tid : String) (pk : Nat) : St :=
  { st with
    canvases := st.canvases.map (fun (c : CanvasRow) =>
      if c.canvasId == tid then { c with status := "ready" } else c),
    dupRecords := st.dupRecords.map (fun (r : DupRecordRow) =>
      if r.pk == pk then { r with status := "finish" } else r),
    txLog := st.txLog ++ [[WriteOp.updateCanvasStatus tid "ready",
                          WriteOp.updateDupRecord pk "finish"]] }

/-- `_duplicateCanvas`, the copy body: silently returns when the user row
is missing; re-checks the live source; loads the source document; forks
entities when requested; links files when the source has another owner;
writes the rebuilt document to the target state key; finally flips canvas
and record status in one transaction. -/
def dupBody (env : Env) (st : St) (uid title srcId tid : String)
    (dup : Bool) (pk : Nat) : Except Err Unit × St :=
  match st.users.find? (fun u => u.uid == uid) with
  | none => (.ok (), st)
  | some user =>
    match st.canvases.find? (fun c => c.canvasId == srcId && c.deletedAt == none) with
    | none => (.error .canvasNotFound, st)
    | some sourceCanvas =>
      match loadSourceDoc st sourceCanvas.stateStorageKey with
      | .error e => (.error e, st)
      | .ok doc =>
        match (if dup then forkNodes env st tid doc.nodes else (.ok doc.nodes, st)) with
        | (.error e, st1) => (.error e, st1)
        | (.ok nodes', st1) =>
          match (if sourceCanvas.uid != user.uid then
                  (match env.dupFiles with
                   | some e => (Except.error e, st1)
                   | none => (Except.ok (), st1))
                 else (Except.ok (), st1)) with
          | (.error e, st2) => (.error e, st2)
          | (.ok _, st2) =>
            match env.putObject with
            | some e => (.error e, st2)
            | none =>
              let st3 := putStore st2 ("state/" ++ tid)
                (some { title := title, nodes := nodes', edges := doc.edges })
              match env.finalTx with
              | some e => (.error e, st3)
              | none => (.ok (), applyFinalTx st3 tid pk)

/-- The two creation writes of `duplicateCanvas`: the target canvas row
with status `duplicating`, then the duplicate record with status
`pending` — two consecutive single-write transactions. -/
def dupCreate (st : St) (uid : String) (p : DupParam) (newTitle : String) :
    CanvasRow × Nat × St :=
  let newCanvasId := freshId st
  let newCanvas : CanvasRow :=
    { uid := uid, canvasId := newCanvasId, title := newTitle, status := "duplicating",
      stateStorageKey := some ("state/" ++ newCanvasId), minimapStorageKey := none,
      updatedAt := st.now, deletedAt := none }
  let dupRec : DupRecordRow :=
    { pk := st.nextPk, uid := uid, sourceId := p.canvasId, targetId := newCanvasId,
      entityType := "canvas", status := "pending" }
  (newCanvas, st.nextPk,
    { st with
      canvases := newCanvas :: st.canvases,
      dupRecords := dupRec :: st.dupRecords,
      nextId := st.nextId + 1,
      nextPk := st.nextPk + 1,
      txLog := st.txLog ++ [[WriteOp.createCanvas newCanvasId],
                            [WriteOp.createDupRecord st.nextPk "pending"]] })

/-- The catch branch of `duplicateCanvas`: mark the record `failed`. -/
def markDupFailed (st : St) (pk : Nat) : St :=
  { st with
    dupRecords := st.dupRecords.map (fun (r : DupRecordRow) =>
      if r.pk == pk then { r with status := "failed" } else r),
    txLog := st.txLog ++ [[WriteOp.updateDupRecord pk "failed"]] }

/-- `duplicateCanvas`: NotFound unless the source lookup succeeds; create
target canvas and duplicate record; run the copy body; on failure mark
the record `failed` and re-raise. -/
def duplicateCanvas (env : Env) (st : St) (uid : String) (p : DupParam) :
    Except Err CanvasRow × St :=
  match st.canvases.find? (fun c => dupSourcePred uid p c) with
  | none => (.error .canvasNotFound, st)
  | some src =>
    let newTitle := resolveTitle p.title src.title
    let r := dupCreate st uid p newTitle
    match dupBody env r.2.2 uid newTitle p.canvasId r.1.canvasId p.duplicateEntities r.2.1 with
    | (.ok _, st2) => (.ok r.1, st2)
    | (.error e, st2) => (.error e, markDupFailed st2 r.2.1)


/-! ### Frame lemmas for the copy body -/

/-- Fields untouched by the entity-forking pass. -/
def entityFrameEq (st st' : St) : Prop :=
  st'.users = st.users ∧ st'.canvases = st.canvases ∧ st'.dupRecords = st.dupRecords ∧
  st'.relations = st.relations ∧ st'.store = st.store ∧ st'.searchIndex = st.searchIndex ∧
  st'.queue = st.queue ∧ st'.nextPk = st.nextPk ∧ st'.now = st.now ∧ st'.txLog = st.txLog

theorem entityFrameEq_refl (st : St) : entityFrameEq st st :=
  ⟨rfl, rfl, rfl, rfl, rfl, rfl, rfl, rfl, rfl, rfl⟩

theorem entityFrameEq_trans {a b c : St} (h1 : entityFrameEq a b) (h2 : entityFrameEq b c) :
    entityFrameEq a c := by
  obtain ⟨u1, c1, d1, r1, s1, i1, q1, p1, n1, t1⟩ := h1
  obtain ⟨u2, c2, d2, r2, s2, i2, q2, p2, n2, t2⟩ := h2
  exact ⟨u2.trans u1, c2.trans c1, d2.trans d1, r2.trans r1, s2.trans s1,
         i2.trans i1, q2.trans q1, p2.trans p1, n2.trans n1, t2.trans t1⟩

theorem forkNode_frame (env : Env) (st : St) (tid : String) (n : CNode) :
    entityFrameEq st (forkNode env st tid n).2 := by
  unfold forkNode
  split
  · cases env.dupDocument n.data.entityId <;>
      exact ⟨rfl, rfl, rfl, rfl, rfl, rfl, rfl, rfl, rfl, rfl⟩
  · split
    · cases env.dupResource n.data.entityId <;>
        exact ⟨rfl, rfl, rfl, rfl, rfl, rfl, rfl, rfl, rfl, rfl⟩
    · split
      · cases env.dupActionResult n.data.entityId <;>
          exact ⟨rfl, rfl, rfl, rfl, rfl, rfl, rfl, rfl, rfl, rfl⟩
      · exact ⟨rfl, rfl, rfl, rfl, rfl, rfl, rfl, rfl, rfl, rfl⟩

theorem forkNodes_frame (env : Env) (tid : String) :
    ∀ (ns : List CNode) (st : St), entityFrameEq st (forkNodes env st tid ns).2 := by
  intro ns
  induction ns with
  | nil => intro st; exact entityFrameEq_refl st
  | cons n ns ih =>
    intro st
    simp only [forkNodes]
    split
    · rename_i e st1 hf
      have hframe := forkNode_frame env st tid n
      rw [hf] at hframe
      exact hframe
    · rename_i n' st1 hf
      have hframe := forkNode_frame env st tid n
      rw [hf] at hframe
      split
      · rename_i e st2 hg
        have ih1 := ih st1
        rw [hg] at ih1
        exact entityFrameEq_trans hframe ih1
      · rename_i ns' st2 hg
        have ih1 := ih st1
        rw [hg] at ih1
        exact entityFrameEq_trans hframe ih1

/-- Fields untouched by the copy body on its failure paths. -/
def coreFrameEq (st st' : St) : Prop :=
  st'.users = st.users ∧ st'.canvases = st.canvases ∧ st'.dupRecords = st.dupRecords ∧
  st'.relations = st.relations ∧ st'.nextPk = st.nextPk ∧ st'.txLog = st.txLog

theorem coreFrameEq_of_entity {a b : St} (h : entityFrameEq a b) : coreFrameEq a b := by
  obtain ⟨u, c, d, r, _, _, _, p, _, t⟩ := h
  exact ⟨u, c, d, r, p, t⟩

/-- On every failure of the copy body, canvas rows, duplicate records and
the transaction log are exactly as before the body ran. -/
theorem dupBody_error_core (env : Env) (st : St) (uid title srcId tid : String)
    (dup : Bool) (pk : Nat) (e : Err) (st' : St)
    (h : dupBody env st uid title srcId tid dup pk = (.error e, st')) :
    coreFrameEq st st' := by
  unfold dupBody at h
  split at h
  · exact absurd (congrArg Prod.fst h) (by simp)
  · split at h
    · injection h with h1 h2
      subst h2
      exact ⟨rfl, rfl, rfl, rfl, rfl, rfl⟩
    · split at h
      · injection h with h1 h2
        subst h2
        exact ⟨rfl, rfl, rfl, rfl, rfl, rfl⟩
      · split at h
        · rename_i e1 st1 heq
          injection h with h1 h2
          subst h2
          by_cases hdup : dup
          · rw [if_pos hdup] at heq
            rename_i doc hload xsc
            have hframe := forkNodes_frame env tid doc.nodes st
            rw [heq] at hframe
            exact coreFrameEq_of_entity hframe
          · rw [if_neg hdup] at heq
            exact absurd (congrArg Prod.fst heq) (by simp)
        · rename_i nodes1 st1 heq
          rename_i doc hload xsc
          have hframe1 : entityFrameEq st st1 := by
            by_cases hdup : dup
            · rw [if_pos hdup] at heq
              have hframe := forkNodes_frame env tid doc.nodes st
              rw [heq] at hframe
              exact hframe
            · rw [if_neg hdup] at heq
              injection heq with hq1 hq2
              subst hq2
              exact entityFrameEq_refl st
          split at h
          · rename_i e2 st2 heq2
            injection h with h1 h2
            subst h2
            have hframe2 : st2 = st1 := by
              split at heq2
              · split at heq2
                · injection heq2 with hp1 hp2
                  exact hp2.symm
                · exact absurd (congrArg Prod.fst heq2) (by simp)
              · exact absurd (congrArg Prod.fst heq2) (by simp)
            subst hframe2
            exact coreFrameEq_of_entity hframe1
          · rename_i u2 st2 heq2
            have hst2 : st2 = st1 := by
              split at heq2
              · split at heq2
                · exact absurd (congrArg Prod.fst heq2) (by simp)
                · injection heq2 with hp1 hp2
                  exact hp2.symm
              · injection heq2 with hp1 hp2
                exact hp2.symm
            subst hst2
            split at h
            · injection h with h1 h2
              subst h2
              exact coreFrameEq_of_entity hframe1
            · split at h
              · injection h with h1 h2
                subst h2
                obtain ⟨u, c, d, r, p, t⟩ := coreFrameEq_of_entity hframe1
                exact ⟨u, c, d, r, p, t⟩
              · exact absurd (congrArg Prod.fst h) (by simp)


/-! ### C1 and C6 -/

/-- C1: whenever the copy body of `duplicateCanvas` fails with an error,
the duplicate record's status is set to `failed`, the very same error is
re-raised to the caller, and the target canvas row is still present with
its `duplicating` status (in particular not `ready`). -/
theorem C1_dup_failure_path (env : Env) (st : St) (uid : String) (p : DupParam)
    (src : CanvasRow) (e : Err)
    (hsrc : st.canvases.find? (fun c => dupSourcePred uid p c) = some src)
    (hbody : (dupBody env (dupCreate st uid p (resolveTitle p.title src.title)).2.2 uid
        (resolveTitle p.title src.title) p.canvasId
        (dupCreate st uid p (resolveTitle p.title src.title)).1.canvasId
        p.duplicateEntities
        (dupCreate st uid p (resolveTitle p.title src.title)).2.1).1 = .error e) :
    (duplicateCanvas env st uid p).1 = .error e ∧
    ((duplicateCanvas env st uid p).2.dupRecords.find?
        (fun d => d.pk == st.nextPk)).map (fun d => d.status) = some "failed" ∧
    ∃ c, (duplicateCanvas env st uid p).2.canvases.find?
        (fun c => c.canvasId == freshId st) = some c ∧
      c.status = "duplicating" ∧ c.status ≠ "ready" ∧ c.deletedAt = none := by
  rcases hb : dupBody env (dupCreate st uid p (resolveTitle p.title src.title)).2.2 uid
      (resolveTitle p.title src.title) p.canvasId
      (dupCreate st uid p (resolveTitle p.title src.title)).1.canvasId
      p.duplicateEntities
      (dupCreate st uid p (resolveTitle p.title src.title)).2.1 with ⟨res, st2⟩
  rw [hb] at hbody
  simp only at hbody
  subst hbody
  have hcore := dupBody_error_core env _ uid _ p.canvasId _ p.duplicateEntities _ e st2 hb
  obtain ⟨hu, hc, hd, hr, hp, ht⟩ := hcore
  have hdup : duplicateCanvas env st uid p = (.error e, markDupFailed st2 st.nextPk) := by
    simp only [duplicateCanvas, hsrc]
    rw [hb]
    rfl
  rw [hdup]
  refine ⟨rfl, ?_, ?_⟩
  · simp only [markDupFailed, hd]
    have hrecs : ((dupCreate st uid p (resolveTitle p.title src.title)).2.2).dupRecords =
        { pk := st.nextPk, uid := uid, sourceId := p.canvasId, targetId := freshId st,
          entityType := "canvas", status := "pending" } :: st.dupRecords := rfl
    rw [hrecs, List.map_cons]
    rw [List.find?_cons_of_pos _ (by simp)]
    simp
  · have hcvs : ((dupCreate st uid p (resolveTitle p.title src.title)).2.2).canvases =
        { uid := uid, canvasId := freshId st, title := resolveTitle p.title src.title,
          status := "duplicating", stateStorageKey := some ("state/" ++ freshId st),
          minimapStorageKey := none, updatedAt := st.now, deletedAt := none } ::
          st.canvases := rfl
    have hfind : (markDupFailed st2 st.nextPk).canvases.find?
        (fun c => c.canvasId == freshId st) =
        some { uid := uid, canvasId := freshId st,
               title := resolveTitle p.title src.title, status := "duplicating",
               stateStorageKey := some ("state/" ++ freshId st), minimapStorageKey := none,
               updatedAt := st.now, deletedAt := none } := by
      have h1 : (markDupFailed st2 st.nextPk).canvases = st2.canvases := rfl
      rw [h1, hc, hcvs]
      rw [List.find?_cons_of_pos _ (by simp)]
    exact ⟨_, hfind, rfl, by simp, rfl⟩

/-- C6 (amended): when the source lookup fails — the source canvas is
missing or soft-deleted, or (only when `checkOwnership` is requested) not
owned by the caller — `duplicateCanvas` fails NotFound and the state is
unchanged, so no target Canvas row and no DuplicateRecord is created. -/
theorem C6_amended_notFound (env : Env) (st : St) (uid : String) (p : DupParam)
    (hmiss : st.canvases.find? (fun c => dupSourcePred uid p c) = none) :
    duplicateCanvas env st uid p = (.error .canvasNotFound, st) := by
  unfold duplicateCanvas
  rw [hmiss]

/-- C6 is false as stated: without the `checkOwnership` option (the
default for workspace duplication), a live canvas owned by another user
is duplicated without NotFound — the call succeeds and creates both a
target Canvas row and a DuplicateRecord. -/
theorem C6_counterexample :
    let st : St := { emptySt with
      users := [{ uid := "alice" }],
      canvases := [{ uid := "bob", canvasId := "c1", title := "t", status := "ready",
                     stateStorageKey := some "state/c1", minimapStorageKey := none,
                     updatedAt := 3, deletedAt := none }],
      store := [("state/c1", some emptyDoc)] }
    let p : DupParam :=
      { canvasId := "c1", title := none, duplicateEntities := false, checkOwnership := false }
    (duplicateCanvas okEnv st "alice" p).1 ≠ .error Err.canvasNotFound ∧
    (duplicateCanvas okEnv st "alice" p).2.canvases.length = 2 ∧
    (duplicateCanvas okEnv st "alice" p).2.dupRecords.length = 1 := by
  intro st p
  exact ⟨by decide, by decide, by decide⟩

/-- Witness for the amended C6: with `checkOwnership`, another user's
canvas yields NotFound and an unchanged state. -/
theorem C6_witness :
    let st : St := { emptySt with
      canvases := [{ uid := "bob", canvasId := "c1", title := "t", status := "ready",
                     stateStorageKey := some "state/c1", minimapStorageKey := none,
                     updatedAt := 3, deletedAt := none }] }
    duplicateCanvas okEnv st "alice"
      { canvasId := "c1", title := none, duplicateEntities := false, checkOwnership := true } =
      (.error .canvasNotFound, st) := by
  intro st
  exact C6_amended_notFound okEnv st "alice"
    { canvasId := "c1", title := none, duplicateEntities := false, checkOwnership := true }
    (by decide)

/-- A state with a live source canvas and user row of `alice`. -/
def srcSt : St :=
  { emptySt with
    users := [{ uid := "alice" }],
    canvases := [{ uid := "alice", canvasId := "c1", title := "t", status := "ready",
                   stateStorageKey := some "state/c1", minimapStorageKey := none,
                   updatedAt := 3, deletedAt := none }],
    store := [("state/c1", some emptyDoc)] }

/-- An environment whose object-store put fails. -/
def putFailEnv : Env := { okEnv with putObject := some (.storage "put failed") }

/-- Witness for C1: a put failure mid-copy leaves a `failed` record and a
`duplicating` target canvas, and the error is re-raised. -/
theorem C1_witness :
    let p : DupParam :=
      { canvasId := "c1", title := none, duplicateEntities := false, checkOwnership := true }
    (duplicateCanvas putFailEnv srcSt "alice" p).1 = .error (.storage "put failed") ∧
    ((duplicateCanvas putFailEnv srcSt "alice" p).2.dupRecords.find?
        (fun d => d.pk == srcSt.nextPk)).map (fun d => d.status) = some "failed" ∧
    ∃ c, (duplicateCanvas putFailEnv srcSt "alice" p).2.canvases.find?
        (fun c => c.canvasId == freshId srcSt) = some c ∧
      c.status = "duplicating" ∧ c.status ≠ "ready" ∧ c.deletedAt = none := by
  intro p
  exact C1_dup_failure_path putFailEnv srcSt "alice" p
    { uid := "alice", canvasId := "c1", title := "t", status := "ready",
      stateStorageKey := some "state/c1", minimapStorageKey := none,
      updatedAt := 3, deletedAt := none }
    (.storage "put failed") (by decide) (by decide)


/-! ### C2 -/

/-- The statuses written to a given duplicate record by a transaction
log, in order. -/
def dupStatusWrites (log : List (List WriteOp)) (pk : Nat) : List String :=
  log.flatten.filterMap (fun op =>
    match op with
    | .updateDupRecord pk2 s => if pk2 == pk then some s else none
    | _ => none)

theorem dupStatusWrites_append (l1 l2 : List (List WriteOp)) (pk : Nat) :
    dupStatusWrites (l1 ++ l2) pk = dupStatusWrites l1 pk ++ dupStatusWrites l2 pk := by
  simp [dupStatusWrites, List.flatten_append, List.filterMap_append]

/-- On the success path of the copy body, the log gains exactly the one
final transaction and the duplicate record flips to `finish`. -/
theorem dupBody_ok_effects (env : Env) (st : St) (uid title srcId tid : String)
    (dup : Bool) (pk : Nat) (st' : St)
    (huser : (st.users.find? (fun u => u.uid == uid)).isSome = true)
    (h : dupBody env st uid title srcId tid dup pk = (.ok (), st')) :
    st'.txLog = st.txLog ++ [[WriteOp.updateCanvasStatus tid "ready",
                              WriteOp.updateDupRecord pk "finish"]] ∧
    st'.dupRecords = st.dupRecords.map (fun (r : DupRecordRow) =>
      if r.pk == pk then { r with status := "finish" } else r) := by
  unfold dupBody at h
  split at h
  · rename_i hne
    rw [hne] at huser
    exact absurd huser (by simp)
  · split at h
    · exact absurd (congrArg Prod.fst h) (by simp)
    · split at h
      · exact absurd (congrArg Prod.fst h) (by simp)
      · split at h
        · exact absurd (congrArg Prod.fst h) (by simp)
        · rename_i nodes1 st1 heq
          rename_i doc hload xsc
          have hframe1 : entityFrameEq st st1 := by
            by_cases hdup : dup
            · rw [if_pos hdup] at heq
              have hframe := forkNodes_frame env tid doc.nodes st
              rw [heq] at hframe
              exact hframe
            · rw [if_neg hdup] at heq
              injection heq with hq1 hq2
              subst hq2
              exact entityFrameEq_refl st
          split at h
          · exact absurd (congrArg Prod.fst h) (by simp)
          · rename_i u2 st2 heq2
            have hst2 : st2 = st1 := by
              split at heq2
              · split at heq2
                · exact absurd (congrArg Prod.fst heq2) (by simp)
                · injection heq2 with hp1 hp2
                  exact hp2.symm
              · injection heq2 with hp1 hp2
                exact hp2.symm
            subst hst2
            split at h
            · exact absurd (congrArg Prod.fst h) (by simp)
            · split at h
              · exact absurd (congrArg Prod.fst h) (by simp)
              · injection h with h1 h2
                obtain ⟨hu, hc, hd, hr, hs, hi, hq, hp, hn, ht⟩ := hframe1
                subst h2
                constructor
                · simp only [applyFinalTx, putStore]
                  rw [ht]
                · simp only [applyFinalTx, putStore]
                  rw [hd]

/-- C2 (amended): whenever the source lookup succeeds, the
DuplicateRecord is created immediately after the target Canvas row but in
a separate single-write transaction, not atomically with it; and —
provided the requesting user's row exists — the run writes the record's
status exactly once, to a terminal `finish` or `failed`, which is also
the record's final status (it started `pending`). -/
theorem C2_amended_lifecycle (env : Env) (st : St) (uid : String) (p : DupParam)
    (src : CanvasRow)
    (hsrc : st.canvases.find? (fun c => dupSourcePred uid p c) = some src)
    (huser : (st.users.find? (fun u => u.uid == uid)).isSome = true) :
    ((duplicateCanvas env st uid p).2.txLog.drop st.txLog.length).take 2 =
      [[WriteOp.createCanvas (freshId st)],
       [WriteOp.createDupRecord st.nextPk "pending"]] ∧
    ∃ s, (s = "finish" ∨ s = "failed") ∧
      dupStatusWrites ((duplicateCanvas env st uid p).2.txLog.drop st.txLog.length)
        st.nextPk = [s] ∧
      ((duplicateCanvas env st uid p).2.dupRecords.find? (fun d => d.pk == st.nextPk)).map
        (fun d => d.status) = some s := by
  rcases hb : dupBody env (dupCreate st uid p (resolveTitle p.title src.title)).2.2 uid
      (resolveTitle p.title src.title) p.canvasId
      (dupCreate st uid p (resolveTitle p.title src.title)).1.canvasId
      p.duplicateEntities
      (dupCreate st uid p (resolveTitle p.title src.title)).2.1 with ⟨res, st2⟩
  have htx1 : ((dupCreate st uid p (resolveTitle p.title src.title)).2.2).txLog =
      st.txLog ++ [[WriteOp.createCanvas (freshId st)],
                   [WriteOp.createDupRecord st.nextPk "pending"]] := rfl
  have hrecs1 : ((dupCreate st uid p (resolveTitle p.title src.title)).2.2).dupRecords =
      { pk := st.nextPk, uid := uid, sourceId := p.canvasId, targetId := freshId st,
        entityType := "canvas", status := "pending" } :: st.dupRecords := rfl
  cases res with
  | ok u =>
    cases u
    have hdup : duplicateCanvas env st uid p =
        (.ok (dupCreate st uid p (resolveTitle p.title src.title)).1, st2) := by
      simp only [duplicateCanvas, hsrc]
      rw [hb]
    obtain ⟨htx, hrec⟩ := dupBody_ok_effects env
      (dupCreate st uid p (resolveTitle p.title src.title)).2.2 uid
      (resolveTitle p.title src.title) p.canvasId (freshId st) p.duplicateEntities
      st.nextPk st2
      (show (((dupCreate st uid p (resolveTitle p.title src.title)).2.2).users.find?
        (fun u => u.uid == uid)).isSome = true from huser) hb
    rw [hdup]
    constructor
    · show (st2.txLog.drop st.txLog.length).take 2 =
        [[WriteOp.createCanvas (freshId st)], [WriteOp.createDupRecord st.nextPk "pending"]]
      rw [htx, htx1, List.append_assoc, List.drop_left]
      rfl
    · refine ⟨"finish", Or.inl rfl, ?_, ?_⟩
      · show dupStatusWrites (st2.txLog.drop st.txLog.length) st.nextPk = ["finish"]
        rw [htx, htx1, List.append_assoc, List.drop_left]
        simp [dupStatusWrites]
      · show (st2.dupRecords.find? (fun d => d.pk == st.nextPk)).map (fun d => d.status) =
          some "finish"
        rw [hrec, hrecs1, List.map_cons]
        rw [List.find?_cons_of_pos _ (by simp)]
        simp
  | error e =>
    have hdup : duplicateCanvas env st uid p = (.error e, markDupFailed st2 st.nextPk) := by
      simp only [duplicateCanvas, hsrc]
      rw [hb]
      rfl
    obtain ⟨hu, hc, hd, hr, hp, ht⟩ := dupBody_error_core env _ uid _ p.canvasId _
      p.duplicateEntities _ e st2 hb
    rw [hdup]
    have htxf : (markDupFailed st2 st.nextPk).txLog =
        st.txLog ++ ([[WriteOp.createCanvas (freshId st)],
                      [WriteOp.createDupRecord st.nextPk "pending"]] ++
                     [[WriteOp.updateDupRecord st.nextPk "failed"]]) := by
      show st2.txLog ++ _ = _
      rw [ht, htx1, List.append_assoc]
    constructor
    · show ((markDupFailed st2 st.nextPk).txLog.drop st.txLog.length).take 2 =
        [[WriteOp.createCanvas (freshId st)], [WriteOp.createDupRecord st.nextPk "pending"]]
      rw [htxf, List.drop_left]
      rfl
    · refine ⟨"failed", Or.inr rfl, ?_, ?_⟩
      · show dupStatusWrites ((markDupFailed st2 st.nextPk).txLog.drop st.txLog.length)
          st.nextPk = ["failed"]
        rw [htxf, List.drop_left]
        simp [dupStatusWrites]
      · show ((st2.dupRecords.map (fun (r : DupRecordRow) =>
            if r.pk == st.nextPk then { r with status := "failed" } else r)).find?
            (fun d => d.pk == st.nextPk)).map (fun d => d.status) = some "failed"
        rw [hd, hrecs1, List.map_cons]
        rw [List.find?_cons_of_pos _ (by simp)]
        simp

/-- C2 is false as stated: at this concrete input the two creation writes
are logged as two distinct transactions (no logged transaction contains
both the canvas create and the record create), and — the requesting
user's row being absent — the call returns successfully while the record
stays `pending` forever, never reaching a terminal state. -/
theorem C2_counterexample :
    let st : St := { emptySt with
      canvases := [{ uid := "alice", canvasId := "c1", title := "t", status := "ready",
                     stateStorageKey := some "state/c1", minimapStorageKey := none,
                     updatedAt := 3, deletedAt := none }],
      store := [("state/c1", some emptyDoc)] }
    let p : DupParam :=
      { canvasId := "c1", title := none, duplicateEntities := false, checkOwnership := false }
    (¬ ∃ tx ∈ (duplicateCanvas okEnv st "alice" p).2.txLog,
        WriteOp.createCanvas "id0" ∈ tx ∧ WriteOp.createDupRecord 0 "pending" ∈ tx) ∧
    ((duplicateCanvas okEnv st "alice" p).2.dupRecords.find? (fun d => d.pk == 0)).map
        (fun d => d.status) = some "pending" ∧
    (∃ c, (duplicateCanvas okEnv st "alice" p).1 = .ok c) := by
  intro st p
  refine ⟨by decide, by decide, ⟨_, rfl⟩⟩

/-- Witness for the amended C2 on a failing run: put failure. -/
theorem C2_witness :
    let p : DupParam :=
      { canvasId := "c1", title := none, duplicateEntities := false, checkOwnership := true }
    ((duplicateCanvas putFailEnv srcSt "alice" p).2.txLog.drop srcSt.txLog.length).take 2 =
      [[WriteOp.createCanvas (freshId srcSt)],
       [WriteOp.createDupRecord srcSt.nextPk "pending"]] ∧
    ∃ s, (s = "finish" ∨ s = "failed") ∧
      dupStatusWrites ((duplicateCanvas putFailEnv srcSt "alice" p).2.txLog.drop
        srcSt.txLog.length) srcSt.nextPk = [s] ∧
      ((duplicateCanvas putFailEnv srcSt "alice" p).2.dupRecords.find?
        (fun d => d.pk == srcSt.nextPk)).map (fun d => d.status) = some s := by
  intro p
  exact C2_amended_lifecycle putFailEnv srcSt "alice" p
    { uid := "alice", canvasId := "c1", title := "t", status := "ready",
      stateStorageKey := some "state/c1", minimapStorageKey := none,
      updatedAt := 3, deletedAt := none }
    (by decide) (by decide)


/-! ### C3: entity forking -/

/-- An entity id already used by some downstream entity row. -/
def idUsed (st : St) (i : String) : Bool :=
  st.documents.any (fun d => d.docId == i) ||
  st.resources.any (fun r => r.resourceId == i) ||
  st.actionResults.any (fun a => a.resultId == i)

/-- The next `n` counter-generated ids are unused in `st`. -/
def genRangeFree (st : St) (n : Nat) : Bool :=
  (List.range n).all (fun j => !(idUsed st ("id" ++ toString (st.nextId + j))))

/-- A downstream entity of the node's kind with this id exists in `st`. -/
def kindExists (st : St) (t i : String) : Prop :=
  (t = "document" ∧ st.documents.any (fun d => d.docId == i) = true) ∨
  (t = "resource" ∧ st.resources.any (fun r => r.resourceId == i) = true) ∨
  (t = "skillResponse" ∧ st.actionResults.any (fun a => a.resultId == i) = true)

/-- How a source node relates to its forked copy: all fields except the
entity id are preserved; a duplicable node's id is rewritten to a
counter-generated id within the given bounds, for which an entity of the
node's kind exists in the final state; other nodes are untouched. -/
def forkedNodeRel (lo hi : Nat) (stF : St) (n n2 : CNode) : Prop :=
  n2.type = n.type ∧ n2.extra = n.extra ∧
  n2.data.title = n.data.title ∧ n2.data.extra = n.data.extra ∧
  (duplicableType n.type = true →
     (∃ k, lo ≤ k ∧ k < hi ∧ n2.data.entityId = "id" ++ toString k) ∧
     kindExists stF n.type n2.data.entityId) ∧
  (duplicableType n.type = false → n2 = n)

theorem forkedNodeRel_mono {lo lo2 hi hi2 : Nat} {stF stF2 : St} {n n2 : CNode}
    (h : forkedNodeRel lo hi stF n n2) (hlo : lo2 ≤ lo) (hhi : hi ≤ hi2)
    (hk : ∀ t i, kindExists stF t i → kindExists stF2 t i) :
    forkedNodeRel lo2 hi2 stF2 n n2 := by
  obtain ⟨h1, h2, h3, h4, h5, h6⟩ := h
  refine ⟨h1, h2, h3, h4, ?_, h6⟩
  intro hdup
  obtain ⟨⟨k, hk1, hk2, hk3⟩, hke⟩ := h5 hdup
  exact ⟨⟨k, le_trans hlo hk1, lt_of_lt_of_le hk2 hhi, hk3⟩, hk _ _ hke⟩

theorem kindExists_congr {a b : St} (hd : b.documents = a.documents)
    (hr : b.resources = a.resources) (ha : b.actionResults = a.actionResults)
    (t i : String) : kindExists a t i → kindExists b t i := by
  intro h
  simp only [kindExists, hd, hr, ha]
  exact h

theorem kindExists_mono_fork (env : Env) (st : St) (tid : String) (n : CNode) (t i : String)
    (h : kindExists st t i) : kindExists (forkNode env st tid n).2 t i := by
  unfold forkNode
  split
  · cases env.dupDocument n.data.entityId with
    | some e => exact h
    | none =>
      rcases h with ⟨ht, ha⟩ | ⟨ht, ha⟩ | ⟨ht, ha⟩
      · exact Or.inl ⟨ht, by simp [createForkedDocument, List.any_cons, ha]⟩
      · exact Or.inr (Or.inl ⟨ht, ha⟩)
      · exact Or.inr (Or.inr ⟨ht, ha⟩)
  · split
    · cases env.dupResource n.data.entityId with
      | some e => exact h
      | none =>
        rcases h with ⟨ht, ha⟩ | ⟨ht, ha⟩ | ⟨ht, ha⟩
        · exact Or.inl ⟨ht, ha⟩
        · exact Or.inr (Or.inl ⟨ht, by simp [createForkedResource, List.any_cons, ha]⟩)
        · exact Or.inr (Or.inr ⟨ht, ha⟩)
    · split
      · cases env.dupActionResult n.data.entityId with
        | some e => exact h
        | none =>
          rcases h with ⟨ht, ha⟩ | ⟨ht, ha⟩ | ⟨ht, ha⟩
          · exact Or.inl ⟨ht, ha⟩
          · exact Or.inr (Or.inl ⟨ht, ha⟩)
          · exact Or.inr (Or.inr ⟨ht, by simp [createForkedActionResult, List.any_cons, ha]⟩)
      · exact h

theorem forkNode_spec (env : Env) (st : St) (tid : String) (n n2 : CNode) (st2 : St)
    (h : forkNode env st tid n = (.ok n2, st2)) :
    st.nextId ≤ st2.nextId ∧ st2.nextId ≤ st.nextId + 1 ∧
    forkedNodeRel st.nextId st2.nextId st2 n n2 := by
  unfold forkNode at h
  split at h
  · rename_i hty
    cases hdd : env.dupDocument n.data.entityId with
    | some e =>
      rw [hdd] at h
      exact absurd (congrArg Prod.fst h) (by simp)
    | none =>
      rw [hdd] at h
      injection h with h1 h2
      injection h1 with h1
      subst h1
      subst h2
      have hty2 : n.type = "document" := by simpa using hty
      refine ⟨Nat.le_succ _, le_refl _, rfl, rfl, rfl, rfl, ?_, ?_⟩
      · intro _
        refine ⟨⟨st.nextId, le_refl _, Nat.lt_succ_self _, rfl⟩, ?_⟩
        exact Or.inl ⟨hty2, by simp [createForkedDocument, freshId]⟩
      · intro hdup
        rw [duplicableType, hty2] at hdup
        simp at hdup
  · rename_i hty1
    split at h
    · rename_i hty
      cases hdd : env.dupResource n.data.entityId with
      | some e =>
        rw [hdd] at h
        exact absurd (congrArg Prod.fst h) (by simp)
      | none =>
        rw [hdd] at h
        injection h with h1 h2
        injection h1 with h1
        subst h1
        subst h2
        have hty2 : n.type = "resource" := by simpa using hty
        refine ⟨Nat.le_succ _, le_refl _, rfl, rfl, rfl, rfl, ?_, ?_⟩
        · intro _
          refine ⟨⟨st.nextId, le_refl _, Nat.lt_succ_self _, rfl⟩, ?_⟩
          exact Or.inr (Or.inl ⟨hty2, by simp [createForkedResource, freshId]⟩)
        · intro hdup
          rw [duplicableType, hty2] at hdup
          simp at hdup
    · rename_i hty2'
      split at h
      · rename_i hty
        cases hdd : env.dupActionResult n.data.entityId with
        | some e =>
          rw [hdd] at h
          exact absurd (congrArg Prod.fst h) (by simp)
        | none =>
          rw [hdd] at h
          injection h with h1 h2
          injection h1 with h1
          subst h1
          subst h2
          have hty2 : n.type = "skillResponse" := by simpa using hty
          refine ⟨Nat.le_succ _, le_refl _, rfl, rfl, rfl, rfl, ?_, ?_⟩
          · intro _
            refine ⟨⟨st.nextId, le_refl _, Nat.lt_succ_self _, rfl⟩, ?_⟩
            exact Or.inr (Or.inr ⟨hty2, by simp [createForkedActionResult, freshId]⟩)
          · intro hdup
            rw [duplicableType, hty2] at hdup
            simp at hdup
      · rename_i hty3'
        injection h with h1 h2
        injection h1 with h1
        subst h1
        subst h2
        refine ⟨le_refl _, Nat.le_succ _, rfl, rfl, rfl, rfl, ?_, fun _ => rfl⟩
        intro hdup
        rw [duplicableType] at hdup
        simp only [Bool.or_eq_true, beq_iff_eq] at hdup
        rcases hdup with (h | h) | h
        · exact absurd h (by simpa using hty1)
        · exact absurd h (by simpa using hty2')
        · exact absurd h (by simpa using hty3')


theorem forkNodes_spec (env : Env) (tid : String) :
    ∀ (ns : List CNode) (st : St) (res : List CNode) (st2 : St),
      forkNodes env st tid ns = (.ok res, st2) →
      res.length = ns.length ∧
      st.nextId ≤ st2.nextId ∧ st2.nextId ≤ st.nextId + ns.length ∧
      (∀ t i, kindExists st t i → kindExists st2 t i) ∧
      (∀ j (h1 : j < ns.length) (h2 : j < res.length),
        forkedNodeRel st.nextId st2.nextId st2 (ns.get ⟨j, h1⟩) (res.get ⟨j, h2⟩)) := by
  intro ns
  induction ns with
  | nil =>
    intro st res st2 h
    simp only [forkNodes] at h
    injection h with h1 h2
    injection h1 with h1
    subst h1
    subst h2
    exact ⟨rfl, le_refl _, Nat.le_add_right _ _, fun t i hk => hk,
           fun j h1 _ => absurd h1 (by simp)⟩
  | cons n ns ih =>
    intro st res st2 h
    simp only [forkNodes] at h
    split at h
    · exact absurd (congrArg Prod.fst h) (by simp)
    · rename_i n1 st1 hf
      split at h
      · exact absurd (congrArg Prod.fst h) (by simp)
      · rename_i ns1 stB hg
        injection h with h1 h2
        injection h1 with h1
        subst h1
        subst h2
        obtain ⟨hA1, hA2, hArel⟩ := forkNode_spec env st tid n n1 st1 hf
        obtain ⟨hL, hB1, hB2, hBk, hBrel⟩ := ih st1 ns1 stB hg
        have hkstep : ∀ t i, kindExists st t i → kindExists st1 t i := by
          intro t i hk
          have hmono := kindExists_mono_fork env st tid n t i hk
          rw [hf] at hmono
          exact hmono
        refine ⟨by simp [hL], le_trans hA1 hB1,
                by simp only [List.length_cons]; omega, ?_, ?_⟩
        · intro t i hk
          exact hBk t i (hkstep t i hk)
        · intro j h1 h2
          cases j with
          | zero =>
            show forkedNodeRel st.nextId stB.nextId stB n n1
            exact forkedNodeRel_mono hArel (le_refl _) hB1 hBk
          | succ j =>
            show forkedNodeRel st.nextId stB.nextId stB
              (ns.get ⟨j, Nat.lt_of_succ_lt_succ h1⟩)
              (ns1.get ⟨j, Nat.lt_of_succ_lt_succ h2⟩)
            exact forkedNodeRel_mono
              (hBrel j (Nat.lt_of_succ_lt_succ h1) (Nat.lt_of_succ_lt_succ h2))
              hA1 (le_refl _) (fun t i hk => hk)

/-- On the success path of the copy body, the target state key holds the
document rebuilt from the source with the new title and the (possibly
forked) node list, and the entity tables are those of the forking pass. -/
theorem dupBody_ok_store (env : Env) (st : St) (uid title srcId tid : String)
    (dup : Bool) (pk : Nat) (st2 : St) (srcB : CanvasRow) (doc : YDocV)
    (husr : (st.users.find? (fun u => u.uid == uid)).isSome = true)
    (hsrcB : st.canvases.find? (fun c =>
      c.canvasId == srcId && c.deletedAt == none) = some srcB)
    (hdoc : loadSourceDoc st srcB.stateStorageKey = .ok doc)
    (h : dupBody env st uid title srcId tid dup pk = (.ok (), st2)) :
    ∃ nodes1 stf,
      (if dup then forkNodes env st tid doc.nodes else (.ok doc.nodes, st)) =
        (.ok nodes1, stf) ∧
      lookupStore st2 ("state/" ++ tid) =
        some (some { title := title, nodes := nodes1, edges := doc.edges }) ∧
      st2.documents = stf.documents ∧ st2.resources = stf.resources ∧
      st2.actionResults = stf.actionResults ∧ st2.nextId = stf.nextId := by
  unfold dupBody at h
  split at h
  · rename_i hne
    rw [hne] at husr
    exact absurd husr (by simp)
  · rename_i user huser2
    split at h
    · rename_i hne
      rw [hne] at hsrcB
      exact absurd hsrcB (by simp)
    · rename_i srcB2 hsrc2
      rw [hsrc2] at hsrcB
      injection hsrcB with hsrcB
      subst hsrcB
      split at h
      · rename_i e2 hload
        rw [hload] at hdoc
        exact absurd hdoc (by simp)
      · rename_i doc2 hload
        rw [hload] at hdoc
        injection hdoc with hdoc
        subst hdoc
        split at h
        · exact absurd (congrArg Prod.fst h) (by simp)
        · rename_i nodes1 st1 heq
          split at h
          · exact absurd (congrArg Prod.fst h) (by simp)
          · rename_i u2 stq heq2
            have hstq : stq = st1 := by
              split at heq2
              · split at heq2
                · exact absurd (congrArg Prod.fst heq2) (by simp)
                · injection heq2 with hp1 hp2
                  exact hp2.symm
              · injection heq2 with hp1 hp2
                exact hp2.symm
            subst hstq
            split at h
            · exact absurd (congrArg Prod.fst h) (by simp)
            · split at h
              · exact absurd (congrArg Prod.fst h) (by simp)
              · injection h with h1 h2
                subst h2
                refine ⟨nodes1, _, heq, ?_, rfl, rfl, rfl, rfl⟩
                simp only [lookupStore, applyFinalTx, putStore]
                rw [List.find?_cons_of_pos _ (by simp)]
                rfl


theorem genRangeFree_spec (st : St) (m : Nat) (hgen : genRangeFree st m = true) :
    ∀ k, st.nextId ≤ k → k < st.nextId + m →
      idUsed st ("id" ++ toString k) = false := by
  intro k hk1 hk2
  have hj := (List.all_eq_true.mp hgen) (k - st.nextId)
    (List.mem_range.mpr (by omega))
  have hke : st.nextId + (k - st.nextId) = k := by omega
  rw [hke] at hj
  simpa using hj

/-- C3: on a successful duplication (source found, requesting user row
present, fresh ids), the document stored under the target state key has
the source's edges and the resolved title; with `duplicateEntities=false`
its node list is exactly the source's (every `entityId` unchanged); with
`duplicateEntities=true` it is the source's list node-for-node, where
each duplicable node's `entityId` has been rewritten in place to an id
unused before the call under which a downstream entity of the node's kind
now exists, all other node fields preserved, and every non-duplicable
node untouched. -/
theorem C3_duplicate_roundtrip (env : Env) (st : St) (uid : String) (p : DupParam)
    (src srcB : CanvasRow) (doc : YDocV) (tgt : CanvasRow)
    (hsrc : st.canvases.find? (fun c => dupSourcePred uid p c) = some src)
    (hsrcB : st.canvases.find? (fun c =>
      c.canvasId == p.canvasId && c.deletedAt == none) = some srcB)
    (husr : (st.users.find? (fun u => u.uid == uid)).isSome = true)
    (hfresh : p.canvasId ≠ freshId st)
    (hgen : genRangeFree st (doc.nodes.length + 1) = true)
    (hdoc : loadSourceDoc st srcB.stateStorageKey = .ok doc)
    (hok : (duplicateCanvas env st uid p).1 = .ok tgt) :
    tgt.canvasId = freshId st ∧
    ∃ nodes1,
      lookupStore (duplicateCanvas env st uid p).2 ("state/" ++ freshId st) =
        some (some { title := resolveTitle p.title src.title, nodes := nodes1,
                     edges := doc.edges }) ∧
      (p.duplicateEntities = false → nodes1 = doc.nodes) ∧
      (p.duplicateEntities = true →
        nodes1.length = doc.nodes.length ∧
        ∀ j (h1 : j < doc.nodes.length) (h2 : j < nodes1.length),
          (nodes1.get ⟨j, h2⟩).type = (doc.nodes.get ⟨j, h1⟩).type ∧
          (nodes1.get ⟨j, h2⟩).extra = (doc.nodes.get ⟨j, h1⟩).extra ∧
          (nodes1.get ⟨j, h2⟩).data.title = (doc.nodes.get ⟨j, h1⟩).data.title ∧
          (nodes1.get ⟨j, h2⟩).data.extra = (doc.nodes.get ⟨j, h1⟩).data.extra ∧
          (duplicableType (doc.nodes.get ⟨j, h1⟩).type = true →
            idUsed st (nodes1.get ⟨j, h2⟩).data.entityId = false ∧
            kindExists (duplicateCanvas env st uid p).2
              (doc.nodes.get ⟨j, h1⟩).type (nodes1.get ⟨j, h2⟩).data.entityId) ∧
          (duplicableType (doc.nodes.get ⟨j, h1⟩).type = false →
            nodes1.get ⟨j, h2⟩ = doc.nodes.get ⟨j, h1⟩)) := by
  rcases hb : dupBody env (dupCreate st uid p (resolveTitle p.title src.title)).2.2 uid
      (resolveTitle p.title src.title) p.canvasId
      (dupCreate st uid p (resolveTitle p.title src.title)).1.canvasId
      p.duplicateEntities
      (dupCreate st uid p (resolveTitle p.title src.title)).2.1 with ⟨res, st2⟩
  cases res with
  | error e =>
    have hfail : duplicateCanvas env st uid p = (.error e, markDupFailed st2 st.nextPk) := by
      simp only [duplicateCanvas, hsrc]
      rw [hb]
      rfl
    rw [hfail] at hok
    exact absurd hok (by simp)
  | ok u =>
    cases u
    have hdup : duplicateCanvas env st uid p =
        (.ok (dupCreate st uid p (resolveTitle p.title src.title)).1, st2) := by
      simp only [duplicateCanvas, hsrc]
      rw [hb]
    rw [hdup] at hok
    simp only at hok
    injection hok with hok
    subst hok
    have husr1 : (((dupCreate st uid p (resolveTitle p.title src.title)).2.2).users.find?
        (fun u => u.uid == uid)).isSome = true := husr
    have hsrcB1 : ((dupCreate st uid p (resolveTitle p.title src.title)).2.2).canvases.find?
        (fun c => c.canvasId == p.canvasId && c.deletedAt == none) = some srcB := by
      have hcvs : ((dupCreate st uid p (resolveTitle p.title src.title)).2.2).canvases =
          (dupCreate st uid p (resolveTitle p.title src.title)).1 :: st.canvases := rfl
      rw [hcvs]
      rw [List.find?_cons_of_neg _ (by simp [dupCreate, Ne.symm hfresh])]
      exact hsrcB
    have hdoc1 : loadSourceDoc (dupCreate st uid p (resolveTitle p.title src.title)).2.2
        srcB.stateStorageKey = .ok doc := hdoc
    obtain ⟨nodes1, stf, hfork, hlook, hdocs, hress, hars, hnid⟩ :=
      dupBody_ok_store env (dupCreate st uid p (resolveTitle p.title src.title)).2.2 uid
        (resolveTitle p.title src.title) p.canvasId (freshId st) p.duplicateEntities
        st.nextPk st2 srcB doc husr1 hsrcB1 hdoc1 hb
    simp only [hdup]
    refine ⟨rfl, nodes1, hlook, ?_, ?_⟩
    · intro hd
      rw [hd, if_neg (by simp)] at hfork
      injection hfork with hf1 hf2
      injection hf1 with hf1
      exact hf1.symm
    · intro hd
      rw [hd, if_pos rfl] at hfork
      obtain ⟨hLen, hN1, hN2, hKmono, hRel⟩ :=
        forkNodes_spec env (freshId st) doc.nodes
          (dupCreate st uid p (resolveTitle p.title src.title)).2.2 nodes1 stf hfork
      refine ⟨hLen, ?_⟩
      intro j h1 h2
      obtain ⟨r1, r2, r3, r4, r5, r6⟩ := hRel j h1 h2
      refine ⟨r1, r2, r3, r4, ?_, r6⟩
      intro hdd
      obtain ⟨⟨k, hk1, hk2, hk3⟩, hke⟩ := r5 hdd
      have hni : ((dupCreate st uid p (resolveTitle p.title src.title)).2.2).nextId =
          st.nextId + 1 := rfl
      constructor
      · rw [hk3]
        exact genRangeFree_spec st (doc.nodes.length + 1) hgen k (by omega) (by omega)
      · exact kindExists_congr hdocs hress hars _ _ hke

/-- A state holding one source canvas of `alice` whose document has one
duplicable (document) node and one non-duplicable (memo) node. -/
def forkSt : St :=
  { emptySt with
    users := [{ uid := "alice" }],
    canvases := [{ uid := "alice", canvasId := "c1", title := "t", status := "ready",
                   stateStorageKey := some "state/c1", minimapStorageKey := none,
                   updatedAt := 3, deletedAt := none }],
    store := [("state/c1", some
      { title := "t",
        nodes := [{ type := "document",
                    data := { entityId := "d1", title := some "D", extra := "de" },
                    extra := "dn" },
                  { type := "memo",
                    data := { entityId := "m1", title := none, extra := "me" },
                    extra := "mn" }],
        edges := ["e1"] })] }

/-- Witness for C3 with `duplicateEntities = true` at `forkSt`. -/
theorem C3_witness :
    let p : DupParam :=
      { canvasId := "c1", title := some "copy", duplicateEntities := true,
        checkOwnership := true }
    let srcRow : CanvasRow :=
      { uid := "alice", canvasId := "c1", title := "t", status := "ready",
        stateStorageKey := some "state/c1", minimapStorageKey := none,
        updatedAt := 3, deletedAt := none }
    let doc : YDocV :=
      { title := "t",
        nodes := [{ type := "document",
                    data := { entityId := "d1", title := some "D", extra := "de" },
                    extra := "dn" },
                  { type := "memo",
                    data := { entityId := "m1", title := none, extra := "me" },
                    extra := "mn" }],
        edges := ["e1"] }
    let tgt : CanvasRow :=
      { uid := "alice", canvasId := "id0", title := "copy", status := "duplicating",
        stateStorageKey := some "state/id0", minimapStorageKey := none,
        updatedAt := 0, deletedAt := none }
    tgt.canvasId = freshId forkSt ∧
    ∃ nodes1,
      lookupStore (duplicateCanvas okEnv forkSt "alice" p).2 ("state/" ++ freshId forkSt) =
        some (some { title := resolveTitle p.title srcRow.title, nodes := nodes1,
                     edges := doc.edges }) ∧
      (p.duplicateEntities = false → nodes1 = doc.nodes) ∧
      (p.duplicateEntities = true →
        nodes1.length = doc.nodes.length ∧
        ∀ j (h1 : j < doc.nodes.length) (h2 : j < nodes1.length),
          (nodes1.get ⟨j, h2⟩).type = (doc.nodes.get ⟨j, h1⟩).type ∧
          (nodes1.get ⟨j, h2⟩).extra = (doc.nodes.get ⟨j, h1⟩).extra ∧
          (nodes1.get ⟨j, h2⟩).data.title = (doc.nodes.get ⟨j, h1⟩).data.title ∧
          (nodes1.get ⟨j, h2⟩).data.extra = (doc.nodes.get ⟨j, h1⟩).data.extra ∧
          (duplicableType (doc.nodes.get ⟨j, h1⟩).type = true →
            idUsed forkSt (nodes1.get ⟨j, h2⟩).data.entityId = false ∧
            kindExists (duplicateCanvas okEnv forkSt "alice" p).2
              (doc.nodes.get ⟨j, h1⟩).type (nodes1.get ⟨j, h2⟩).data.entityId) ∧
          (duplicableType (doc.nodes.get ⟨j, h1⟩).type = false →
            nodes1.get ⟨j, h2⟩ = doc.nodes.get ⟨j, h1⟩)) := by
  intro p srcRow doc tgt
  exact C3_duplicate_roundtrip okEnv forkSt "alice" p srcRow srcRow doc tgt
    (by decide) (by decide) (by decide) (by decide) (by decide) (by decide) (by decide)


/-! ### C4: entity-relation reconciliation -/

/-- Modelled from the spec: the CRDT Document Engine session
(`collabService.loadDocument` / `openDirectConnection`, not in the
analysed sources) loads a canvas's document from its state blob, failing
soft to an empty document. -/
def loadCanvasDoc (st : St) (canvas : CanvasRow) : YDocV :=
  (getCanvasYDoc st canvas.stateStorageKey).getD emptyDoc

/-- The (entityId, entityType) pairs of a node list, skipping falsy
fields (`entity.entityId && entity.entityType`). -/
def nodeEntityPairs (nodes : List CNode) : List (String × String) :=
  (nodes.map (fun n => (n.data.entityId, n.type))).filter
    (fun e => e.1 != "" && e.2 != "")

/-- Modelled from the spec: `createMany` with `skipDuplicates` over the
relation table's conceptual unique key (canvasId, entityId, entityType) —
a duplicate-tolerant insert that skips a pair when an identical live row
already exists. -/
def insRow (canvasId : String) (e : String × String) : RelationRow :=
  { canvasId := canvasId, entityId := e.1, entityType := e.2, deletedAt := none }

def createRelationsSkipDup (st : St) (canvasId : String) :
    List (String × String) → St
  | [] => st
  | e :: es =>
    let st1 :=
      if st.relations.any (fun r => r.canvasId == canvasId && r.entityId == e.1 &&
          r.entityType == e.2 && r.deletedAt == none) then st
      else { st with relations := st.relations ++ [insRow canvasId e] }
    createRelationsSkipDup st1 canvasId es

/-- `syncCanvasEntityRelation`: diff the canvas's live relation rows
against the current node list — both directions keyed by `entityId`
alone — then bulk soft-delete and bulk duplicate-tolerant insert. -/
def syncCanvasEntityRelation (st : St) (canvasId : String) : Except Err Unit × St :=
  match st.canvases.find? (fun c => c.canvasId == canvasId) with
  | none => (.error .canvasNotFound, st)
  | some canvas =>
    let nodes := (loadCanvasDoc st canvas).nodes
    let entities := nodeEntityPairs nodes
    let existing := st.relations.filter (fun r =>
      r.canvasId == canvasId && r.deletedAt == none)
    let entityIds := entities.map (fun e => e.1)
    let removeIds := (existing.filter (fun r => !(entityIds.contains r.entityId))).map
      (fun r => r.entityId)
    let existingIds := existing.map (fun r => r.entityId)
    let toCreate := entities.filter (fun e => !(existingIds.contains e.1))
    let st1 := { st with relations := st.relations.map (fun (r : RelationRow) =>
      if r.canvasId == canvasId && removeIds.contains r.entityId && r.deletedAt == none
      then { r with deletedAt := some st.now } else r) }
    (.ok (), createRelationsSkipDup st1 canvasId toCreate)

/-- C4 is false as stated: a canvas whose node list holds the pair
(document, X) while a live relation row (X, resource) pre-exists is
reconciled by entityId alone — after the pass the live row still has
entityType `resource` and no (X, document) row exists, so the set of live
(canvasId, entityId, entityType) rows differs from the node pairs. -/
theorem C4_counterexample :
    let st : St := { emptySt with
      canvases := [{ uid := "alice", canvasId := "c1", title := "t", status := "ready",
                     stateStorageKey := some "state/c1", minimapStorageKey := none,
                     updatedAt := 3, deletedAt := none }],
      store := [("state/c1", some
        { title := "t",
          nodes := [{ type := "document",
                      data := { entityId := "X", title := none, extra := "" },
                      extra := "" }],
          edges := [] })],
      relations := [{ canvasId := "c1", entityId := "X", entityType := "resource",
                      deletedAt := none }] }
    let st2 := (syncCanvasEntityRelation st "c1").2
    ("X", "document") ∈ nodeEntityPairs
      (loadCanvasDoc st { uid := "alice", canvasId := "c1", title := "t", status := "ready",
                          stateStorageKey := some "state/c1", minimapStorageKey := none,
                          updatedAt := 3, deletedAt := none }).nodes ∧
    st2.relations.countP (fun r => r.canvasId == "c1" && r.entityId == "X" &&
      r.entityType == "document" && r.deletedAt == none) = 0 ∧
    st2.relations.countP (fun r => r.canvasId == "c1" && r.entityId == "X" &&
      r.entityType == "resource" && r.deletedAt == none) = 1 := by
  intro st st2
  exact ⟨by decide, by decide, by decide⟩


/-- The reconciliation's `removeIds`: entity ids of live rows of the
canvas whose id no longer appears in the node list. -/
def syncRemoveIds (st : St) (canvasId : String) (canvas : CanvasRow) : List String :=
  ((st.relations.filter (fun r => r.canvasId == canvasId && r.deletedAt == none)).filter
    (fun r => !(((nodeEntityPairs (loadCanvasDoc st canvas).nodes).map
      (fun e => e.1)).contains r.entityId))).map (fun r => r.entityId)

/-- The reconciliation's `relationsToCreate`: node pairs whose id has no
live row yet. -/
def syncToCreate (st : St) (canvasId : String) (canvas : CanvasRow) :
    List (String × String) :=
  (nodeEntityPairs (loadCanvasDoc st canvas).nodes).filter (fun e =>
    !(((st.relations.filter (fun r => r.canvasId == canvasId &&
      r.deletedAt == none)).map (fun r => r.entityId)).contains e.1))

/-- The state after the reconciliation's bulk soft-delete. -/
def syncKilled (st : St) (canvasId : String) (canvas : CanvasRow) : St :=
  { st with relations := st.relations.map (fun (r : RelationRow) =>
    if r.canvasId == canvasId && (syncRemoveIds st canvasId canvas).contains r.entityId &&
        r.deletedAt == none
    then { r with deletedAt := some st.now } else r) }

theorem relPred_kill (cid : String) (ids : List String) (tnow : Nat) (id ty : String)
    (r : RelationRow) :
    ((if r.canvasId == cid && ids.contains r.entityId && r.deletedAt == none
       then { r with deletedAt := some tnow } else r).canvasId == cid &&
     (if r.canvasId == cid && ids.contains r.entityId && r.deletedAt == none
       then { r with deletedAt := some tnow } else r).entityId == id &&
     (if r.canvasId == cid && ids.contains r.entityId && r.deletedAt == none
       then { r with deletedAt := some tnow } else r).entityType == ty &&
     (if r.canvasId == cid && ids.contains r.entityId && r.deletedAt == none
       then { r with deletedAt := some tnow } else r).deletedAt == none) =
    ((r.canvasId == cid && r.entityId == id && r.entityType == ty &&
      r.deletedAt == none) && !(ids.contains id)) := by
  by_cases hid : r.entityId = id
  · subst hid
    cases hA : (r.canvasId == cid) <;> cases hB : ids.contains r.entityId <;>
      cases hC : (r.deletedAt == none) <;> simp [hA, hB, hC]
  · have hid2 : (r.entityId == id) = false := by
      simp [hid]
    cases hA : (r.canvasId == cid) <;> cases hB : ids.contains r.entityId <;>
      cases hC : (r.deletedAt == none) <;> simp [hA, hB, hC, hid2]

theorem countP_killMap (cid : String) (ids : List String) (tnow : Nat) (id ty : String)
    (l : List RelationRow) :
    (l.map (fun (r : RelationRow) =>
      if r.canvasId == cid && ids.contains r.entityId && r.deletedAt == none
      then { r with deletedAt := some tnow } else r)).countP
      (fun r => r.canvasId == cid && r.entityId == id && r.entityType == ty &&
        r.deletedAt == none) =
    if ids.contains id then 0
    else l.countP (fun r => r.canvasId == cid && r.entityId == id &&
      r.entityType == ty && r.deletedAt == none) := by
  rw [List.countP_map]
  have hcong : l.countP ((fun (r2 : RelationRow) => r2.canvasId == cid &&
      r2.entityId == id && r2.entityType == ty && r2.deletedAt == none) ∘
      (fun (r : RelationRow) =>
        if r.canvasId == cid && ids.contains r.entityId && r.deletedAt == none
        then { r with deletedAt := some tnow } else r)) =
      l.countP (fun r => (r.canvasId == cid && r.entityId == id && r.entityType == ty &&
        r.deletedAt == none) && !(ids.contains id)) := by
    apply List.countP_congr
    intro r hr
    simp only [Function.comp_apply]
    rw [relPred_kill cid ids tnow id ty r]
  rw [hcong]
  by_cases hrem : ids.contains id
  · rw [if_pos hrem]
    simp only [hrem]
    simp
  · rw [if_neg hrem]
    have hrem2 : ids.contains id = false := by simpa using hrem
    simp only [hrem2]
    simp

theorem countP_id_le_one (id : String) :
    ∀ l : List RelationRow,
      l.Pairwise (fun a b => a.entityId ≠ b.entityId) →
      l.countP (fun r => r.entityId == id) ≤ 1 := by
  intro l
  induction l with
  | nil => intro _; simp
  | cons r l ih =>
    intro h
    rcases List.pairwise_cons.mp h with ⟨hr, hl⟩
    rw [List.countP_cons]
    by_cases hrid : (r.entityId == id) = true
    · have hz : l.countP (fun r2 => r2.entityId == id) = 0 := by
        rw [List.countP_eq_zero]
        intro a ha hpa
        have hne := hr a ha
        have h1 : r.entityId = id := by simpa using hrid
        have h2 : a.entityId = id := by simpa using hpa
        exact hne (h1.trans h2.symm)
      simp [hrid, hz]
    · have hrid2 : (r.entityId == id) = false := by simpa using hrid
      simpa [hrid2] using ih hl

/-- Exact effect on one (id, ty) count of the duplicate-tolerant bulk
insert. -/
theorem createRelations_count (cid id ty : String) :
    ∀ (es : List (String × String)) (st : St),
      (createRelationsSkipDup st cid es).relations.countP
        (fun r => r.canvasId == cid && r.entityId == id && r.entityType == ty &&
          r.deletedAt == none) =
      if (id, ty) ∈ es
      then max (st.relations.countP (fun r => r.canvasId == cid && r.entityId == id &&
        r.entityType == ty && r.deletedAt == none)) 1
      else st.relations.countP (fun r => r.canvasId == cid && r.entityId == id &&
        r.entityType == ty && r.deletedAt == none) := by
  intro es
  induction es with
  | nil =>
    intro st
    simp [createRelationsSkipDup]
  | cons e es ih =>
    obtain ⟨e1, e2⟩ := e
    intro st
    simp only [createRelationsSkipDup]
    by_cases hany : (st.relations.any (fun r => r.canvasId == cid && r.entityId == e1 &&
        r.entityType == e2 && r.deletedAt == none)) = true
    · rw [if_pos hany, ih]
      by_cases he : (id, ty) = (e1, e2)
      · injection he with h1 h2
        subst h1
        subst h2
        have hpos : 0 < st.relations.countP (fun r => r.canvasId == cid &&
            r.entityId == id && r.entityType == ty && r.deletedAt == none) := by
          rw [List.countP_pos_iff]
          obtain ⟨a, ha, hpa⟩ := List.any_eq_true.mp hany
          exact ⟨a, ha, hpa⟩
        have hmax : max (st.relations.countP (fun r => r.canvasId == cid &&
            r.entityId == id && r.entityType == ty && r.deletedAt == none)) 1 =
            st.relations.countP (fun r => r.canvasId == cid && r.entityId == id &&
              r.entityType == ty && r.deletedAt == none) :=
          Nat.max_eq_left hpos
        rw [if_pos (List.mem_cons_self (id, ty) es)]
        split
        · rfl
        · exact hmax.symm
      · have hmm : ((id, ty) ∈ (e1, e2) :: es) = ((id, ty) ∈ es) := by
          simp [List.mem_cons, he]
        simp only [hmm]
    · rw [if_neg hany, ih]
      have hproj : ({ st with relations := st.relations ++ [insRow cid (e1, e2)] } :
          St).relations = st.relations ++ [insRow cid (e1, e2)] := rfl
      have happ : (st.relations ++ [insRow cid (e1, e2)]).countP
          (fun r => r.canvasId == cid && r.entityId == id && r.entityType == ty &&
            r.deletedAt == none) =
          st.relations.countP (fun r => r.canvasId == cid && r.entityId == id &&
            r.entityType == ty && r.deletedAt == none) +
            (if (id, ty) = (e1, e2) then 1 else 0) := by
        rw [List.countP_append]
        congr 1
        by_cases he : (id, ty) = (e1, e2)
        · injection he with h1 h2
          subst h1
          subst h2
          rw [if_pos rfl]
          simp [insRow, List.countP_cons]
        · rw [if_neg he]
          have hne : ¬(e1 = id ∧ e2 = ty) := by
            rintro ⟨ha, hb⟩
            subst ha
            subst hb
            exact he rfl
          by_cases h1 : e1 = id
          · have h2 : ¬ e2 = ty := fun hcon => hne ⟨h1, hcon⟩
            simp [insRow, List.countP_cons, h1, h2]
          · simp [insRow, List.countP_cons, h1]
      by_cases he : (id, ty) = (e1, e2)
      · have hc0 : st.relations.countP (fun r => r.canvasId == cid && r.entityId == id &&
            r.entityType == ty && r.deletedAt == none) = 0 := by
          rw [List.countP_eq_zero]
          intro a ha hpa
          apply hany
          rw [List.any_eq_true]
          injection he with h1 h2
          subst h1
          subst h2
          exact ⟨a, ha, hpa⟩
        rw [hproj, happ, hc0, if_pos he]
        rw [if_pos (show (id, ty) ∈ (e1, e2) :: es from he ▸ List.mem_cons_self (id, ty) es)]
        split
        · rfl
        · rfl
      · have hmm : ((id, ty) ∈ (e1, e2) :: es) = ((id, ty) ∈ es) := by
          simp [List.mem_cons, he]
        rw [hproj, happ, if_neg he, Nat.add_zero]
        simp only [hmm]


theorem ite_false_bool {α : Type} (a b : α) : (if false = true then a else b) = b := rfl

theorem ite_true_bool {α : Type} (a b : α) : (if true = true then a else b) = a := rfl

/-- C4 (amended): after a reconciliation pass on a canvas whose
pre-existing live relation rows have pairwise-distinct entity ids and
types agreeing with the node pairs sharing their id, the live relation
rows of that canvas are exactly the (entityId, entityType) pairs of the
node list, each with exactly one live row. (Unconditionally, the pass
diffs by entityId alone.) -/
theorem C4_amended_reconcile (st : St) (canvasId : String) (canvas : CanvasRow)
    (hc : st.canvases.find? (fun c => c.canvasId == canvasId) = some canvas)
    (hU : (st.relations.filter (fun r => r.canvasId == canvasId &&
      r.deletedAt == none)).Pairwise (fun a b => a.entityId ≠ b.entityId))
    (hT : ∀ r ∈ st.relations.filter (fun r => r.canvasId == canvasId &&
        r.deletedAt == none),
      ∀ e ∈ nodeEntityPairs (loadCanvasDoc st canvas).nodes,
        r.entityId = e.1 → r.entityType = e.2) :
    (syncCanvasEntityRelation st canvasId).1 = .ok () ∧
    ∀ id ty,
      (syncCanvasEntityRelation st canvasId).2.relations.countP
        (fun r => r.canvasId == canvasId && r.entityId == id &&
          r.entityType == ty && r.deletedAt == none) =
      if (id, ty) ∈ nodeEntityPairs (loadCanvasDoc st canvas).nodes then 1 else 0 := by
  have hsync : syncCanvasEntityRelation st canvasId =
      (.ok (), createRelationsSkipDup (syncKilled st canvasId canvas) canvasId
        (syncToCreate st canvasId canvas)) := by
    unfold syncCanvasEntityRelation
    rw [hc]
    rfl
  rw [hsync]
  refine ⟨rfl, ?_⟩
  intro id ty
  show (createRelationsSkipDup (syncKilled st canvasId canvas) canvasId
      (syncToCreate st canvasId canvas)).relations.countP
      (fun r => r.canvasId == canvasId && r.entityId == id &&
        r.entityType == ty && r.deletedAt == none) =
    if (id, ty) ∈ nodeEntityPairs (loadCanvasDoc st canvas).nodes then 1 else 0
  rw [createRelations_count canvasId id ty (syncToCreate st canvasId canvas)
    (syncKilled st canvasId canvas)]
  have hkillrel : (syncKilled st canvasId canvas).relations =
      st.relations.map (fun (r : RelationRow) =>
        if r.canvasId == canvasId && (syncRemoveIds st canvasId canvas).contains r.entityId &&
            r.deletedAt == none
        then { r with deletedAt := some st.now } else r) := rfl
  rw [hkillrel, countP_killMap canvasId (syncRemoveIds st canvasId canvas) st.now id ty
    st.relations]
  have hle1 : st.relations.countP (fun r => r.canvasId == canvasId && r.entityId == id &&
      r.entityType == ty && r.deletedAt == none) ≤ 1 := by
    have hstep1 : st.relations.countP (fun r => r.canvasId == canvasId &&
        r.entityId == id && r.entityType == ty && r.deletedAt == none) =
        (st.relations.filter (fun r => r.canvasId == canvasId &&
          r.deletedAt == none)).countP (fun r => r.entityId == id &&
            r.entityType == ty) := by
      rw [List.countP_filter]
      apply List.countP_congr
      intro r hr
      cases hA : (r.canvasId == canvasId) <;> cases hB : (r.entityId == id) <;>
        cases hC : (r.entityType == ty) <;> cases hD : (r.deletedAt == none) <;>
        simp [hA, hB, hC, hD]
    rw [hstep1]
    calc (st.relations.filter (fun r => r.canvasId == canvasId &&
          r.deletedAt == none)).countP (fun r => r.entityId == id && r.entityType == ty) ≤
        (st.relations.filter (fun r => r.canvasId == canvasId &&
          r.deletedAt == none)).countP (fun r => r.entityId == id) := by
          apply List.countP_mono_left
          intro r hr hp
          exact (Bool.and_eq_true _ _ |>.mp hp).1
      _ ≤ 1 := countP_id_le_one id _ hU
  by_cases hmem : (id, ty) ∈ nodeEntityPairs (loadCanvasDoc st canvas).nodes
  · rw [if_pos hmem]
    have hidE : ((nodeEntityPairs (loadCanvasDoc st canvas).nodes).map
        (fun e => e.1)).contains id = true := by
      rw [List.contains_iff_exists_mem_beq]
      exact ⟨id, List.mem_map.mpr ⟨(id, ty), hmem, rfl⟩, by simp⟩
    have hremF : (syncRemoveIds st canvasId canvas).contains id = false := by
      by_contra hx
      have hx2 : (syncRemoveIds st canvasId canvas).contains id = true := by
        simpa using hx
      simp only [syncRemoveIds] at hx2
      rw [List.contains_iff_exists_mem_beq] at hx2
      obtain ⟨i2, hi2, hbeq⟩ := hx2
      have hid : id = i2 := by simpa using hbeq
      subst hid
      obtain ⟨r, hrmem, hrid⟩ := List.mem_map.mp hi2
      have hcond := (List.mem_filter.mp hrmem).2
      rw [hrid] at hcond
      rw [hidE] at hcond
      simp at hcond
    rw [hremF, ite_false_bool]
    by_cases hex : ∃ r ∈ st.relations.filter (fun r => r.canvasId == canvasId &&
        r.deletedAt == none), r.entityId = id
    · have hnotC : (id, ty) ∉ syncToCreate st canvasId canvas := by
        intro hx
        obtain ⟨r, hr, hrid⟩ := hex
        have hcontains : ((st.relations.filter (fun r => r.canvasId == canvasId &&
            r.deletedAt == none)).map (fun r => r.entityId)).contains id = true := by
          rw [List.contains_iff_exists_mem_beq]
          exact ⟨id, List.mem_map.mpr ⟨r, hr, hrid⟩, by simp⟩
        have hcond := (List.mem_filter.mp hx).2
        have hcond2 : (!(((st.relations.filter (fun r => r.canvasId == canvasId &&
            r.deletedAt == none)).map (fun r => r.entityId)).contains id)) = true := hcond
        rw [hcontains] at hcond2
        simp at hcond2
      rw [if_neg hnotC]
      obtain ⟨r, hr, hrid⟩ := hex
      have hty : r.entityType = ty := hT r hr (id, ty) hmem hrid
      have hpos : 0 < st.relations.countP (fun r => r.canvasId == canvasId &&
          r.entityId == id && r.entityType == ty && r.deletedAt == none) := by
        rw [List.countP_pos_iff]
        refine ⟨r, (List.mem_filter.mp hr).1, ?_⟩
        have h2 := (List.mem_filter.mp hr).2
        simp only [Bool.and_eq_true, beq_iff_eq] at h2 ⊢
        exact ⟨⟨⟨h2.1, hrid⟩, hty⟩, h2.2⟩
      omega
    · have hinC : (id, ty) ∈ syncToCreate st canvasId canvas := by
        apply List.mem_filter.mpr
        refine ⟨hmem, ?_⟩
        show (!(((st.relations.filter (fun r => r.canvasId == canvasId &&
          r.deletedAt == none)).map (fun r => r.entityId)).contains id)) = true
        rw [Bool.not_eq_true']
        rcases Bool.eq_false_or_eq_true (((st.relations.filter
            (fun r => r.canvasId == canvasId && r.deletedAt == none)).map
            (fun r => r.entityId)).contains id) with hx2 | hx2
        · exfalso
          rw [List.contains_iff_exists_mem_beq] at hx2
          obtain ⟨i2, hi2, hbeq⟩ := hx2
          have hi : id = i2 := by simpa using hbeq
          subst hi
          obtain ⟨r, hr, hrid⟩ := List.mem_map.mp hi2
          exact hex ⟨r, hr, hrid⟩
        · exact hx2
      rw [if_pos hinC]
      have hc0 : st.relations.countP (fun r => r.canvasId == canvasId &&
          r.entityId == id && r.entityType == ty && r.deletedAt == none) = 0 := by
        rw [List.countP_eq_zero]
        intro r hr hpr
        apply hex
        simp only [Bool.and_eq_true, beq_iff_eq] at hpr
        refine ⟨r, List.mem_filter.mpr ⟨hr, ?_⟩, hpr.1.1.2⟩
        simp only [Bool.and_eq_true, beq_iff_eq]
        exact ⟨hpr.1.1.1, hpr.2⟩
      rw [hc0]
      decide
  · rw [if_neg hmem]
    have hnotC : (id, ty) ∉ syncToCreate st canvasId canvas := by
      intro hx
      exact hmem (List.mem_filter.mp hx).1
    rw [if_neg hnotC]
    by_cases hidE : ((nodeEntityPairs (loadCanvasDoc st canvas).nodes).map
        (fun e => e.1)).contains id = true
    · have hc0 : st.relations.countP (fun r => r.canvasId == canvasId &&
          r.entityId == id && r.entityType == ty && r.deletedAt == none) = 0 := by
        rw [List.countP_eq_zero]
        intro r hr hpr
        simp only [Bool.and_eq_true, beq_iff_eq] at hpr
        have hrf : r ∈ st.relations.filter (fun r => r.canvasId == canvasId &&
            r.deletedAt == none) := by
          refine List.mem_filter.mpr ⟨hr, ?_⟩
          simp only [Bool.and_eq_true, beq_iff_eq]
          exact ⟨hpr.1.1.1, hpr.2⟩
        have hEp : ∃ e ∈ nodeEntityPairs (loadCanvasDoc st canvas).nodes, e.1 = id := by
          rw [List.contains_iff_exists_mem_beq] at hidE
          obtain ⟨i2, hi2, hbeq⟩ := hidE
          have hi : id = i2 := by simpa using hbeq
          subst hi
          exact List.mem_map.mp hi2
        obtain ⟨e, heE, heid⟩ := hEp
        have hre : r.entityId = e.1 := by rw [hpr.1.1.2, heid]
        have hety := hT r hrf e heE hre
        apply hmem
        obtain ⟨ee1, ee2⟩ := e
        simp only at heid hety
        have h2 : ty = ee2 := by rw [← hpr.1.2, hety]
        subst heid
        subst h2
        exact heE
      cases hrc : (syncRemoveIds st canvasId canvas).contains id
      · rw [ite_false_bool, hc0]
      · rw [ite_true_bool]
    · have hidE2 : ((nodeEntityPairs (loadCanvasDoc st canvas).nodes).map
          (fun e => e.1)).contains id = false := by simpa using hidE
      cases hrc : (syncRemoveIds st canvasId canvas).contains id
      · have hc0 : st.relations.countP (fun r => r.canvasId == canvasId &&
            r.entityId == id && r.entityType == ty && r.deletedAt == none) = 0 := by
          rw [List.countP_eq_zero]
          intro r hr hpr
          simp only [Bool.and_eq_true, beq_iff_eq] at hpr
          have hrf : r ∈ st.relations.filter (fun r => r.canvasId == canvasId &&
              r.deletedAt == none) := by
            refine List.mem_filter.mpr ⟨hr, ?_⟩
            simp only [Bool.and_eq_true, beq_iff_eq]
            exact ⟨hpr.1.1.1, hpr.2⟩
          have hmm2 : id ∈ syncRemoveIds st canvasId canvas := by
            simp only [syncRemoveIds]
            refine List.mem_map.mpr ⟨r, ?_, hpr.1.1.2⟩
            refine List.mem_filter.mpr ⟨hrf, ?_⟩
            show (!(((nodeEntityPairs (loadCanvasDoc st canvas).nodes).map
              (fun e => e.1)).contains r.entityId)) = true
            rw [hpr.1.1.2, hidE2]
            rfl
          have hco : (syncRemoveIds st canvasId canvas).contains id = true := by
            rw [List.contains_iff_exists_mem_beq]
            exact ⟨id, hmm2, by simp⟩
          rw [hrc] at hco
          exact absurd hco (by simp)
        rw [ite_false_bool, hc0]
      · rw [ite_true_bool]

/-- Witness canvas for the reconciliation theorem. -/
def syncWCanvas : CanvasRow :=
  { uid := "alice", canvasId := "c1", title := "t", status := "ready",
    stateStorageKey := some "state/c1", minimapStorageKey := none,
    updatedAt := 3, deletedAt := none }

/-- Witness state: canvas c1 whose document holds nodes (document, X) and
(resource, Y); live relation rows for X (matching type) and a stale Z. -/
def syncWSt : St :=
  { emptySt with
    canvases := [syncWCanvas],
    store := [("state/c1", some
      { title := "t",
        nodes := [{ type := "document",
                    data := { entityId := "X", title := none, extra := "" },
                    extra := "" },
                  { type := "resource",
                    data := { entityId := "Y", title := none, extra := "" },
                    extra := "" }],
        edges := [] })],
    relations := [{ canvasId := "c1", entityId := "X", entityType := "document",
                    deletedAt := none },
                  { canvasId := "c1", entityId := "Z", entityType := "document",
                    deletedAt := none }] }

theorem C4_witness :
    (List.find? (fun c => c.canvasId == "c1") syncWSt.canvases = some syncWCanvas) ∧
    (syncCanvasEntityRelation syncWSt "c1").1 = .ok () ∧
    (syncCanvasEntityRelation syncWSt "c1").2.relations.countP
      (fun r => r.canvasId == "c1" && r.entityId == "Y" &&
        r.entityType == "resource" && r.deletedAt == none) =
      (if ("Y", "resource") ∈ nodeEntityPairs (loadCanvasDoc syncWSt syncWCanvas).nodes
       then 1 else 0) := by
  have h := C4_amended_reconcile syncWSt "c1" syncWCanvas (by decide) (by decide) (by decide)
  exact ⟨by decide, h.1, h.2 "Y" "resource"⟩

/-! ### C5: deleteEntityNodesFromCanvases (removeEntityEverywhere) -/

/-- A node's match against the given entity pairs, guarded by falsy
checks (`if (entityId && entityType)` then `entities.find(...)`). -/
def nodeMatches (es : List (String × String)) (n : CNode) : Bool :=
  n.data.entityId != "" && n.type != "" &&
    es.any (fun e => e.1 == n.data.entityId && e.2 == n.type)

/-- The `toRemove` index accumulation of the node scan (`nodes.forEach`
pushing the running index on a match), from offset `i`. -/
def idxsFrom (p : CNode → Bool) : Nat → List CNode → List Nat
  | _, [] => []
  | i, n :: ns => if p n then i :: idxsFrom p (i + 1) ns else idxsFrom p (i + 1) ns

def idxsWhere (p : CNode → Bool) (nodes : List CNode) : List Nat :=
  idxsFrom p 0 nodes

/-- `toRemove.reverse(); for (const index of toRemove) nodes.delete(index, 1)`:
delete the collected indices in descending order. -/
def deleteIdxsDesc (nodes : List CNode) (idxs : List Nat) : List CNode :=
  idxs.reverse.foldl (fun ns i => ns.eraseIdx i) nodes

/-- `distinct: ['canvasId']` over the relation query: keep the first
occurrence of each canvas id. -/
def dedupIds : List String → List String
  | [] => []
  | x :: xs => x :: (dedupIds xs).filter (fun y => y != x)

/-- Modelled from the spec: the per-canvas CRDT session
(`collabService.openDirectConnection` / `disconnect`, not in the analysed
sources) persists the transacted node list back into the canvas's state
blob when the connection closes. -/
def saveCanvasNodes (st : St) (canvas : CanvasRow) (nodes1 : List CNode) : St :=
  match canvas.stateStorageKey with
  | some k => putStore st k (some { loadCanvasDoc st canvas with nodes := nodes1 })
  | none => st

/-- The `canvasEntityRelation.updateMany` of the per-canvas callback:
soft-delete every live relation row of the canvas whose entityId is among
the given ids and entityType among the given types. -/
def markRelsDeleted (es : List (String × String)) (canvasId : String) (st : St) : St :=
  { st with relations := st.relations.map (fun (r : RelationRow) =>
      if r.canvasId == canvasId &&
          (es.map (fun e => e.1)).contains r.entityId &&
          (es.map (fun e => e.2)).contains r.entityType &&
          r.deletedAt == none
      then { r with deletedAt := some st.now } else r) }

/-- The per-canvas callback of `deleteEntityNodesFromCanvases`: skip a
missing canvas row, else remove the matching nodes from the document
(indices first, then descending deletion) and soft-delete the relations. -/
def deleteEntityNodesStep (es : List (String × String)) (st : St)
    (canvasId : String) : St :=
  match st.canvases.find? (fun c => c.canvasId == canvasId) with
  | none => st
  | some canvas =>
    markRelsDeleted es canvasId (saveCanvasNodes st canvas
      (deleteIdxsDesc (loadCanvasDoc st canvas).nodes
        (idxsWhere (nodeMatches es) (loadCanvasDoc st canvas).nodes)))

/-- `deleteEntityNodesFromCanvases`: find the distinct canvases holding a
live relation whose entityId / entityType are among the given pairs'
components, then run the per-canvas node-and-relation deletion on each. -/
def deleteEntityNodesFromCanvases (st : St) (es : List (String × String)) : St :=
  (dedupIds ((st.relations.filter (fun r =>
      (es.map (fun e => e.1)).contains r.entityId &&
      (es.map (fun e => e.2)).contains r.entityType &&
      r.deletedAt == none)).map (fun r => r.canvasId))).foldl
    (deleteEntityNodesStep es) st

/-- No live relation row of the canvas still matches the bulk-delete
filter. -/
def noLiveCross (es : List (String × String)) (cid : String) (s : St) : Prop :=
  ∀ r ∈ s.relations, r.canvasId = cid →
    (es.map (fun e => e.1)).contains r.entityId = true →
    (es.map (fun e => e.2)).contains r.entityType = true →
    r.deletedAt ≠ none

theorem eraseIdx_append_middle (pre : List CNode) (x : CNode) (xs : List CNode) :
    (pre ++ x :: xs).eraseIdx pre.length = pre ++ xs := by
  induction pre with
  | nil => rfl
  | cons p ps ih =>
    show (p :: (ps ++ x :: xs)).eraseIdx (ps.length + 1) = p :: (ps ++ xs)
    rw [List.eraseIdx_cons_succ, ih]

theorem erase_idxsFrom (p : CNode → Bool) (ns : List CNode) :
    ∀ pre : List CNode,
      (idxsFrom p pre.length ns).foldr (fun i l => l.eraseIdx i) (pre ++ ns) =
        pre ++ ns.filter (fun n => !(p n)) := by
  induction ns with
  | nil => intro pre; simp [idxsFrom]
  | cons n ns ih =>
    intro pre
    have hpn : pre ++ n :: ns = (pre ++ [n]) ++ ns := by simp
    have hlen : (pre ++ [n]).length = pre.length + 1 := by simp
    have h2 := ih (pre ++ [n])
    rw [hlen, ← hpn] at h2
    by_cases hp : p n = true
    · have h1 : idxsFrom p pre.length (n :: ns) =
          pre.length :: idxsFrom p (pre.length + 1) ns := by
        simp [idxsFrom, hp]
      rw [h1, List.foldr_cons, h2]
      rw [List.append_assoc]
      rw [show [n] ++ List.filter (fun n => !(p n)) ns =
        n :: List.filter (fun n => !(p n)) ns from rfl]
      rw [eraseIdx_append_middle]
      rw [show List.filter (fun n => !(p n)) (n :: ns) =
        List.filter (fun n => !(p n)) ns by simp [List.filter_cons, hp]]
    · have h1 : idxsFrom p pre.length (n :: ns) =
          idxsFrom p (pre.length + 1) ns := by
        simp [idxsFrom, hp]
      have hpb : (!(p n)) = true := by simp [hp]
      rw [h1, h2]
      rw [show List.filter (fun n => !(p n)) (n :: ns) =
        n :: List.filter (fun n => !(p n)) ns by simp [List.filter_cons, hpb]]
      rw [List.append_assoc]
      rfl

theorem deleteIdxs_filter (p : CNode → Bool) (nodes : List CNode) :
    deleteIdxsDesc nodes (idxsWhere p nodes) = nodes.filter (fun n => !(p n)) := by
  unfold deleteIdxsDesc idxsWhere
  rw [List.foldl_reverse]
  have h := erase_idxsFrom p nodes []
  simpa using h

theorem mem_dedupIds {a : String} : ∀ {l : List String}, a ∈ l → a ∈ dedupIds l := by
  intro l
  induction l with
  | nil => intro h; cases h
  | cons x xs ih =>
    intro h
    show a ∈ x :: (dedupIds xs).filter (fun y => y != x)
    rcases List.mem_cons.mp h with h | h
    · exact h ▸ List.mem_cons_self _ _
    · by_cases hax : a = x
      · exact hax ▸ List.mem_cons_self _ _
      · exact List.mem_cons_of_mem _
          (List.mem_filter.mpr ⟨ih h, by simpa using hax⟩)

theorem dedupIds_nodup : ∀ (l : List String), (dedupIds l).Nodup := by
  intro l
  induction l with
  | nil => exact List.nodup_nil
  | cons x xs ih =>
    show (x :: (dedupIds xs).filter (fun y => y != x)).Nodup
    refine List.nodup_cons.mpr ⟨?_, ih.filter _⟩
    intro hx
    have := (List.mem_filter.mp hx).2
    simp at this

theorem lookupStore_putStore_self (s : St) (k : String) (d : Option YDocV) :
    lookupStore (putStore s k d) k = some d := by
  unfold lookupStore putStore
  rw [List.find?_cons_of_pos _ (by simp)]
  rfl

theorem lookupStore_putStore_ne (s : St) (k2 k : String) (d : Option YDocV)
    (h : ¬(k2 = k)) : lookupStore (putStore s k2 d) k = lookupStore s k := by
  unfold lookupStore putStore
  rw [List.find?_cons_of_neg _ (by simpa using h)]

theorem saveCanvasNodes_none (s : St) (cv : CanvasRow) (ns : List CNode)
    (h : cv.stateStorageKey = none) : saveCanvasNodes s cv ns = s := by
  unfold saveCanvasNodes
  rw [h]

theorem saveCanvasNodes_some (s : St) (cv : CanvasRow) (ns : List CNode) (k2 : String)
    (h : cv.stateStorageKey = some k2) :
    saveCanvasNodes s cv ns = putStore s k2 (some { loadCanvasDoc s cv with nodes := ns }) := by
  unfold saveCanvasNodes
  rw [h]

theorem markRels_establishes (es : List (String × String)) (cid : String) (s : St) :
    noLiveCross es cid (markRelsDeleted es cid s) := by
  intro r hr hc h1 h2
  obtain ⟨r0, hr0, hmap⟩ := List.mem_map.mp hr
  by_cases hcond : (r0.canvasId == cid &&
      (es.map (fun e => e.1)).contains r0.entityId &&
      (es.map (fun e => e.2)).contains r0.entityType &&
      r0.deletedAt == none) = true
  · rw [if_pos hcond] at hmap
    rw [← hmap]
    simp
  · rw [if_neg hcond] at hmap
    subst hmap
    intro hdead
    apply hcond
    simp only [Bool.and_eq_true, beq_iff_eq]
    exact ⟨⟨⟨hc, h1⟩, h2⟩, hdead⟩

theorem markRels_preserves (es : List (String × String)) (cid cid2 : String) (s : St)
    (h : noLiveCross es cid s) : noLiveCross es cid (markRelsDeleted es cid2 s) := by
  intro r hr hc h1 h2
  obtain ⟨r0, hr0, hmap⟩ := List.mem_map.mp hr
  by_cases hcond : (r0.canvasId == cid2 &&
      (es.map (fun e => e.1)).contains r0.entityId &&
      (es.map (fun e => e.2)).contains r0.entityType &&
      r0.deletedAt == none) = true
  · rw [if_pos hcond] at hmap
    rw [← hmap]
    simp
  · rw [if_neg hcond] at hmap
    subst hmap
    exact h r0 hr0 hc h1 h2

theorem deleteStep_noLive (es : List (String × String)) (cid : String) (s : St)
    (c : String) (h : noLiveCross es cid s) :
    noLiveCross es cid (deleteEntityNodesStep es s c) := by
  cases hf : s.canvases.find? (fun cv => cv.canvasId == c) with
  | none =>
    have hstep : deleteEntityNodesStep es s c = s := by
      unfold deleteEntityNodesStep
      rw [hf]
    rw [hstep]
    exact h
  | some cv =>
    have hstep : deleteEntityNodesStep es s c =
        markRelsDeleted es c (saveCanvasNodes s cv
          (deleteIdxsDesc (loadCanvasDoc s cv).nodes
            (idxsWhere (nodeMatches es) (loadCanvasDoc s cv).nodes))) := by
      unfold deleteEntityNodesStep
      rw [hf]
    rw [hstep]
    apply markRels_preserves
    have hrel : ∀ ns, (saveCanvasNodes s cv ns).relations = s.relations := by
      intro ns
      cases hsk : cv.stateStorageKey with
      | none => rw [saveCanvasNodes_none s cv ns hsk]
      | some k2 =>
        rw [saveCanvasNodes_some s cv ns k2 hsk]
        rfl
    intro r hr
    rw [hrel] at hr
    exact h r hr

theorem deleteStep_frame (es : List (String × String)) (s : St) (c k : String)
    (h : ∀ cv ∈ s.canvases, cv.canvasId = c → cv.stateStorageKey ≠ some k) :
    (deleteEntityNodesStep es s c).canvases = s.canvases ∧
    lookupStore (deleteEntityNodesStep es s c) k = lookupStore s k := by
  cases hf : s.canvases.find? (fun cv => cv.canvasId == c) with
  | none =>
    have hstep : deleteEntityNodesStep es s c = s := by
      unfold deleteEntityNodesStep
      rw [hf]
    rw [hstep]
    exact ⟨rfl, rfl⟩
  | some cv =>
    have hstep : deleteEntityNodesStep es s c =
        markRelsDeleted es c (saveCanvasNodes s cv
          (deleteIdxsDesc (loadCanvasDoc s cv).nodes
            (idxsWhere (nodeMatches es) (loadCanvasDoc s cv).nodes))) := by
      unfold deleteEntityNodesStep
      rw [hf]
    rw [hstep]
    have hcv : cv ∈ s.canvases := List.mem_of_find?_eq_some hf
    have hcid : cv.canvasId = c := by simpa using List.find?_some hf
    cases hsk : cv.stateStorageKey with
    | none =>
      rw [saveCanvasNodes_none _ _ _ hsk]
      exact ⟨rfl, rfl⟩
    | some k2 =>
      have hk2 : ¬(k2 = k) := by
        intro he
        exact h cv hcv hcid (by rw [hsk, he])
      rw [saveCanvasNodes_some _ _ _ _ hsk]
      exact ⟨rfl, lookupStore_putStore_ne s k2 k _ hk2⟩

theorem foldSteps_frame (es : List (String × String)) (k : String) :
    ∀ (cids : List String) (s : St),
      (∀ c ∈ cids, ∀ cv ∈ s.canvases, cv.canvasId = c → cv.stateStorageKey ≠ some k) →
      (cids.foldl (deleteEntityNodesStep es) s).canvases = s.canvases ∧
      lookupStore (cids.foldl (deleteEntityNodesStep es) s) k = lookupStore s k := by
  intro cids
  induction cids with
  | nil => intro s _; exact ⟨rfl, rfl⟩
  | cons c cs ih =>
    intro s h
    have hstep := deleteStep_frame es s c k (h c (List.mem_cons_self c cs))
    have hrest := ih (deleteEntityNodesStep es s c) (fun c2 hc2 cv hcv hcvc => by
      rw [hstep.1] at hcv
      exact h c2 (List.mem_cons_of_mem c hc2) cv hcv hcvc)
    constructor
    · show (cs.foldl (deleteEntityNodesStep es) (deleteEntityNodesStep es s c)).canvases =
        s.canvases
      rw [hrest.1, hstep.1]
    · show lookupStore (cs.foldl (deleteEntityNodesStep es)
        (deleteEntityNodesStep es s c)) k = lookupStore s k
      rw [hrest.2, hstep.2]

theorem foldSteps_noLive (es : List (String × String)) (cid : String) :
    ∀ (cids : List String) (s : St), noLiveCross es cid s →
      noLiveCross es cid (cids.foldl (deleteEntityNodesStep es) s) := by
  intro cids
  induction cids with
  | nil => intro s h; exact h
  | cons c cs ih =>
    intro s h
    exact ih _ (deleteStep_noLive es cid s c h)

theorem deleteStep_at_target (es : List (String × String)) (s : St) (canvas : CanvasRow)
    (k : String) (doc : YDocV)
    (hf : s.canvases.find? (fun c => c.canvasId == canvas.canvasId) = some canvas)
    (hk : canvas.stateStorageKey = some k) (hk0 : ¬(k = ""))
    (hdoc : lookupStore s k = some (some doc)) :
    lookupStore (deleteEntityNodesStep es s canvas.canvasId) k =
      some (some { doc with nodes := doc.nodes.filter (fun n => !(nodeMatches es n)) }) ∧
    noLiveCross es canvas.canvasId (deleteEntityNodesStep es s canvas.canvasId) ∧
    (deleteEntityNodesStep es s canvas.canvasId).canvases = s.canvases := by
  have hg : getCanvasYDoc s (some k) = some doc := by
    show (if k = "" then none else match lookupStore s k with
      | some (some d) => some d
      | _ => none) = some doc
    rw [if_neg hk0, hdoc]
  have hload : loadCanvasDoc s canvas = doc := by
    unfold loadCanvasDoc
    rw [hk, hg]
    rfl
  have hstep : deleteEntityNodesStep es s canvas.canvasId =
      markRelsDeleted es canvas.canvasId (saveCanvasNodes s canvas
        (deleteIdxsDesc (loadCanvasDoc s canvas).nodes
          (idxsWhere (nodeMatches es) (loadCanvasDoc s canvas).nodes))) := by
    unfold deleteEntityNodesStep
    rw [hf]
  rw [hstep]
  rw [saveCanvasNodes_some s canvas _ k hk]
  rw [hload, deleteIdxs_filter]
  refine ⟨lookupStore_putStore_self s k _, markRels_establishes es canvas.canvasId _, rfl⟩

/-- C5: for any (entityId, entityType) pairs given to
`deleteEntityNodesFromCanvases`, a canvas holding a live relation to one
of the pairs — provided its row exists, carries a non-empty state blob
key not shared with another canvas, and the blob holds a document — has
every node whose (type, entityId) matches a given pair removed from its
stored document (indices computed first, deleted in descending order,
i.e. the node list is filtered in place), all other nodes and the rest of
the document untouched, and afterwards no live relation row of the
canvas matches the bulk soft-delete filter (which covers every given
pair). -/
theorem C5_remove_entity_everywhere (st : St) (es : List (String × String))
    (canvas : CanvasRow) (k : String) (doc : YDocV) (r0 : RelationRow)
    (hr0 : r0 ∈ st.relations) (hr0c : r0.canvasId = canvas.canvasId)
    (hr0live : r0.deletedAt = none)
    (hr0pair : (r0.entityId, r0.entityType) ∈ es)
    (hfind : st.canvases.find? (fun c => c.canvasId == canvas.canvasId) = some canvas)
    (hk : canvas.stateStorageKey = some k) (hk0 : ¬(k = ""))
    (hdoc : lookupStore st k = some (some doc))
    (hkeys : ∀ c2 ∈ st.canvases, c2.canvasId ≠ canvas.canvasId →
      c2.stateStorageKey ≠ some k) :
    lookupStore (deleteEntityNodesFromCanvases st es) k =
      some (some { doc with nodes := doc.nodes.filter (fun n => !(nodeMatches es n)) }) ∧
    (deleteEntityNodesFromCanvases st es).relations.countP (fun r =>
      r.canvasId == canvas.canvasId &&
      (es.map (fun e => e.1)).contains r.entityId &&
      (es.map (fun e => e.2)).contains r.entityType &&
      r.deletedAt == none) = 0 := by
  have hq : ((es.map (fun e => e.1)).contains r0.entityId &&
      (es.map (fun e => e.2)).contains r0.entityType &&
      r0.deletedAt == none) = true := by
    have h1 : (es.map (fun e => e.1)).contains r0.entityId = true := by
      rw [List.contains_iff_exists_mem_beq]
      exact ⟨r0.entityId, List.mem_map.mpr ⟨(r0.entityId, r0.entityType), hr0pair, rfl⟩,
        by simp⟩
    have h2 : (es.map (fun e => e.2)).contains r0.entityType = true := by
      rw [List.contains_iff_exists_mem_beq]
      exact ⟨r0.entityType, List.mem_map.mpr ⟨(r0.entityId, r0.entityType), hr0pair, rfl⟩,
        by simp⟩
    rw [h1, h2]
    simp [hr0live]
  have hmemL : canvas.canvasId ∈ dedupIds ((st.relations.filter (fun r =>
      (es.map (fun e => e.1)).contains r.entityId &&
      (es.map (fun e => e.2)).contains r.entityType &&
      r.deletedAt == none)).map (fun r => r.canvasId)) :=
    mem_dedupIds (List.mem_map.mpr ⟨r0, List.mem_filter.mpr ⟨hr0, hq⟩, hr0c⟩)
  obtain ⟨l1, l2, hL⟩ := List.append_of_mem hmemL
  have hnodup : (l1 ++ canvas.canvasId :: l2).Nodup := hL ▸ dedupIds_nodup _
  have hsplit := List.nodup_append.mp hnodup
  have hcid_l2 : canvas.canvasId ∉ l2 := (List.nodup_cons.mp hsplit.2.1).1
  have hcid_l1 : canvas.canvasId ∉ l1 := fun hx =>
    hsplit.2.2 hx (List.mem_cons_self _ _)
  have hmain : deleteEntityNodesFromCanvases st es =
      l2.foldl (deleteEntityNodesStep es)
        (deleteEntityNodesStep es (l1.foldl (deleteEntityNodesStep es) st)
          canvas.canvasId) := by
    unfold deleteEntityNodesFromCanvases
    rw [hL, List.foldl_append]
    rfl
  have hA := foldSteps_frame es k l1 st (fun c hc cv hcv hcvc => by
    apply hkeys cv hcv
    rw [hcvc]
    intro he
    exact hcid_l1 (he ▸ hc))
  have hfA : (l1.foldl (deleteEntityNodesStep es) st).canvases.find?
      (fun c => c.canvasId == canvas.canvasId) = some canvas := by
    rw [hA.1]
    exact hfind
  have hdA : lookupStore (l1.foldl (deleteEntityNodesStep es) st) k =
      some (some doc) := by
    rw [hA.2]
    exact hdoc
  have hT := deleteStep_at_target es (l1.foldl (deleteEntityNodesStep es) st)
    canvas k doc hfA hk hk0 hdA
  have hB := foldSteps_frame es k l2
    (deleteEntityNodesStep es (l1.foldl (deleteEntityNodesStep es) st) canvas.canvasId)
    (fun c hc cv hcv hcvc => by
      rw [hT.2.2, hA.1] at hcv
      apply hkeys cv hcv
      rw [hcvc]
      intro he
      exact hcid_l2 (he ▸ hc))
  have hJ := foldSteps_noLive es canvas.canvasId l2
    (deleteEntityNodesStep es (l1.foldl (deleteEntityNodesStep es) st) canvas.canvasId)
    hT.2.1
  constructor
  · rw [hmain, hB.2, hT.1]
  · rw [hmain]
    rw [List.countP_eq_zero]
    intro r hr hp
    simp only [Bool.and_eq_true, beq_iff_eq] at hp
    exact hJ r hr hp.1.1.1 hp.1.1.2 hp.1.2 hp.2

/-- Witness fixtures for the entity-removal theorem. -/
def c5Canvas : CanvasRow :=
  { uid := "alice", canvasId := "c1", title := "t", status := "ready",
    stateStorageKey := some "state5/c1", minimapStorageKey := none,
    updatedAt := 3, deletedAt := none }

def c5Doc : YDocV :=
  { title := "t",
    nodes := [{ type := "document",
                data := { entityId := "X", title := none, extra := "" },
                extra := "" },
              { type := "resource",
                data := { entityId := "Y", title := none, extra := "" },
                extra := "" }],
    edges := [] }

def c5Rel : RelationRow :=
  { canvasId := "c1", entityId := "X", entityType := "document", deletedAt := none }

def c5St : St :=
  { emptySt with
    canvases := [c5Canvas],
    store := [("state5/c1", some c5Doc)],
    relations := [c5Rel] }

theorem C5_witness :
    lookupStore (deleteEntityNodesFromCanvases c5St [("X", "document")]) "state5/c1" =
      some (some { c5Doc with
        nodes := c5Doc.nodes.filter (fun n => !(nodeMatches [("X", "document")] n)) }) ∧
    (deleteEntityNodesFromCanvases c5St [("X", "document")]).relations.countP (fun r =>
      r.canvasId == c5Canvas.canvasId &&
      ([("X", "document")].map (fun e => e.1)).contains r.entityId &&
      ([("X", "document")].map (fun e => e.2)).contains r.entityType &&
      r.deletedAt == none) = 0 :=
  C5_remove_entity_everywhere c5St [("X", "document")] c5Canvas "state5/c1" c5Doc c5Rel
    (by decide) (by decide) (by decide) (by decide) (by decide) (by decide) (by decide)
    (by decide) (by decide)

end Refly
